import Mathlib

/-!
Verification development for the polaris 16-state EKF core.

The C sources are shallowly embedded over an arbitrary linearly ordered
field `F` standing for exact-arithmetic `float` values.  The machine
square root `sqrtf` is taken as an explicit function parameter; theorems
that need its defining property assume it as a hypothesis, and concrete
evaluations use either `Real.sqrt` or a rational stub that agrees with
the true square root at every point where it is applied.
-/

set_option maxHeartbeats 1000000
set_option linter.unusedSectionVars false

namespace Polaris

variable {F : Type} [LinearOrderedField F]

/-- Vector3f from vector3f.h: three float components. -/
structure Vector3f (F : Type) where
  x : F
  y : F
  z : F
deriving DecidableEq

/-- Quaternion from quaternion.h: scalar-first Hamilton quaternion. -/
structure Quaternion (F : Type) where
  w : F
  x : F
  y : F
  z : F
deriving DecidableEq

/-- Matrix from matrix.h: a fixed 16x16 float store with logical row and
column counts.  The store is modelled as a total function on naturals;
cells that the C code never initializes are modelled as 0. -/
structure Matrix (F : Type) where
  rows : ℕ
  cols : ℕ
  data : ℕ → ℕ → F

/-- MATRIX_MAX_SIZE from matrix.h. -/
def MATRIX_MAX_SIZE : ℕ := 16

/-- EKF_STATE_DIM from ekf.h. -/
def EKF_STATE_DIM : ℕ := 16

/-- EKF struct from ekf.h. -/
structure EKF (F : Type) where
  x : Matrix F
  P : Matrix F
  Q : Matrix F
  R_gps : Matrix F
  R_baro : Matrix F
  R_mag : Matrix F
  gravity : F
  earth_mag_ned : Vector3f F
  initialized : Bool

/-! ### vector3f.c and the vector part of quaternion.c -/

/-- vector3f_zero from both quaternion.c and vector3f.c. -/
def vector3f_zero : Vector3f F := ⟨0, 0, 0⟩

/-- vector3f_create from both quaternion.c and vector3f.c. -/
def vector3f_create (x y z : F) : Vector3f F := ⟨x, y, z⟩

/-- vector3f_add from both quaternion.c and vector3f.c. -/
def vector3f_add (v1 v2 : Vector3f F) : Vector3f F :=
  ⟨v1.x + v2.x, v1.y + v2.y, v1.z + v2.z⟩

/-- vector3f_subtract from both quaternion.c and vector3f.c. -/
def vector3f_subtract (v1 v2 : Vector3f F) : Vector3f F :=
  ⟨v1.x - v2.x, v1.y - v2.y, v1.z - v2.z⟩

/-- vector3f_scale from both quaternion.c and vector3f.c. -/
def vector3f_scale (v : Vector3f F) (scalar : F) : Vector3f F :=
  ⟨v.x * scalar, v.y * scalar, v.z * scalar⟩

/-- vector3f_magnitude from both quaternion.c and vector3f.c:
sqrtf of the sum of squared components.  `sqrt` models `sqrtf`. -/
def vector3f_magnitude (sqrt : F → F) (v : Vector3f F) : F :=
  sqrt (v.x * v.x + v.y * v.y + v.z * v.z)

namespace QuatC

/-- vector3f_normalize as compiled in quaternion.c (lines 300-315):
a magnitude below 1e-6 yields the zero vector, otherwise the vector is
scaled by the reciprocal magnitude. -/
def vector3f_normalize (sqrt : F → F) (v : Vector3f F) : Vector3f F :=
  let magnitude := vector3f_magnitude sqrt v
  if magnitude < 1/1000000 then vector3f_zero
  else
    let inv_magnitude := 1 / magnitude
    ⟨v.x * inv_magnitude, v.y * inv_magnitude, v.z * inv_magnitude⟩

end QuatC

namespace Vec3C

/-- vector3f_normalize as written in vector3f.c (lines 99-111):
the vector is scaled only when the magnitude exceeds 1e-6, otherwise the
input is returned unchanged. -/
def vector3f_normalize (sqrt : F → F) (v : Vector3f F) : Vector3f F :=
  let mag := vector3f_magnitude sqrt v
  if mag > 1/1000000 then
    let inv_mag := 1 / mag
    ⟨v.x * inv_mag, v.y * inv_mag, v.z * inv_mag⟩
  else v

end Vec3C

/-! ### quaternion.c -/

/-- quaternion_identity from quaternion.c. -/
def quaternion_identity : Quaternion F := ⟨1, 0, 0, 0⟩

/-- quaternion_create from quaternion.c. -/
def quaternion_create (w x y z : F) : Quaternion F := ⟨w, x, y, z⟩

/-- quaternion_magnitude from quaternion.c. -/
def quaternion_magnitude (sqrt : F → F) (q : Quaternion F) : F :=
  sqrt (q.w * q.w + q.x * q.x + q.y * q.y + q.z * q.z)

/-- quaternion_normalize from quaternion.c: magnitudes below 1e-6 give
the identity quaternion, otherwise the components are scaled by the
reciprocal magnitude. -/
def quaternion_normalize (sqrt : F → F) (q : Quaternion F) : Quaternion F :=
  let magnitude := quaternion_magnitude sqrt q
  if magnitude < 1/1000000 then quaternion_identity
  else
    let inv_magnitude := 1 / magnitude
    ⟨q.w * inv_magnitude, q.x * inv_magnitude, q.y * inv_magnitude, q.z * inv_magnitude⟩

/-- quaternion_multiply from quaternion.c: the Hamilton product. -/
def quaternion_multiply (q1 q2 : Quaternion F) : Quaternion F :=
  ⟨q1.w * q2.w - q1.x * q2.x - q1.y * q2.y - q1.z * q2.z,
   q1.w * q2.x + q1.x * q2.w + q1.y * q2.z - q1.z * q2.y,
   q1.w * q2.y - q1.x * q2.z + q1.y * q2.w + q1.z * q2.x,
   q1.w * q2.z + q1.x * q2.y - q1.y * q2.x + q1.z * q2.w⟩

/-- quaternion_conjugate from quaternion.c. -/
def quaternion_conjugate (q : Quaternion F) : Quaternion F :=
  ⟨q.w, -q.x, -q.y, -q.z⟩

/-- quaternion_rotate_vector from quaternion.c: applies the body-to-NED
rotation matrix derived from q to v. -/
def quaternion_rotate_vector (q : Quaternion F) (v : Vector3f F) : Vector3f F :=
  let qw2 := q.w * q.w
  let qx2 := q.x * q.x
  let qy2 := q.y * q.y
  let qz2 := q.z * q.z
  let qwx := q.w * q.x
  let qwy := q.w * q.y
  let qwz := q.w * q.z
  let qxy := q.x * q.y
  let qxz := q.x * q.z
  let qyz := q.y * q.z
  let m11 := qw2 + qx2 - qy2 - qz2
  let m12 := 2 * (qxy - qwz)
  let m13 := 2 * (qxz + qwy)
  let m21 := 2 * (qxy + qwz)
  let m22 := qw2 - qx2 + qy2 - qz2
  let m23 := 2 * (qyz - qwx)
  let m31 := 2 * (qxz - qwy)
  let m32 := 2 * (qyz + qwx)
  let m33 := qw2 - qx2 - qy2 + qz2
  ⟨m11 * v.x + m12 * v.y + m13 * v.z,
   m21 * v.x + m22 * v.y + m23 * v.z,
   m31 * v.x + m32 * v.y + m33 * v.z⟩

/-- quaternion_derivative from quaternion.c: one half of the Hamilton
product of q with the pure quaternion (0, omega). -/
def quaternion_derivative (q : Quaternion F) (omega : Vector3f F) : Quaternion F :=
  let omega_quat : Quaternion F := ⟨0, omega.x, omega.y, omega.z⟩
  let q_dot := quaternion_multiply q omega_quat
  ⟨q_dot.w * (1/2), q_dot.x * (1/2), q_dot.y * (1/2), q_dot.z * (1/2)⟩

/-- Modelled from the spec: quaternion_rotate_vector_inverse is called by
ekf_update_mag but is absent from the sources provided (only its caller
exists).  Section 4.5.3 of the specification defines the magnetometer
prediction as the NED-to-body rotation of the reference field, that is,
rotation by the conjugate quaternion. -/
def quaternion_rotate_vector_inverse (q : Quaternion F) (v : Vector3f F) : Vector3f F :=
  quaternion_rotate_vector (quaternion_conjugate q) v

/-- Transcendental primitives needed by quaternion_to_euler; they are
taken as parameters of the embedding, exactly like the square root. -/
structure MathPrims (F : Type) where
  sqrt : F → F
  atan2 : F → F → F
  asin : F → F
  pi : F

/-- quaternion_to_euler from quaternion.c: normalizes the input and
recovers ZYX Euler angles, saturating pitch at +-pi/2.  The C function
writes through pointers; the embedding returns the (roll, pitch, yaw)
triple. -/
def quaternion_to_euler (p : MathPrims F) (q : Quaternion F) : F × F × F :=
  let qn := quaternion_normalize p.sqrt q
  let roll := p.atan2 (2 * (qn.w * qn.x + qn.y * qn.z))
                      (1 - 2 * (qn.x * qn.x + qn.y * qn.y))
  let sinp := 2 * (qn.w * qn.y - qn.z * qn.x)
  let pitch := if |sinp| ≥ 1 then (if sinp < 0 then -(p.pi / 2) else p.pi / 2)
               else p.asin sinp
  let yaw := p.atan2 (2 * (qn.w * qn.z + qn.x * qn.y))
                     (1 - 2 * (qn.y * qn.y + qn.z * qn.z))
  (roll, pitch, yaw)

/-! ### matrix.c -/

/-- matrix_create from matrix.c: the requested row and column counts are
clamped to MATRIX_MAX_SIZE and every cell inside the logical shape is
zeroed.  The C code leaves cells outside the logical shape uninitialized;
the embedding models them as 0 as well. -/
def matrix_create (rows cols : ℕ) : Matrix F :=
  let rows := if rows > MATRIX_MAX_SIZE then MATRIX_MAX_SIZE else rows
  let cols := if cols > MATRIX_MAX_SIZE then MATRIX_MAX_SIZE else cols
  ⟨rows, cols, fun _ _ => 0⟩

/-- matrix_identity from matrix.c: matrix_create followed by writing 1 on
the diagonal.  All call sites pass size at most 16, so the raw diagonal
writes coincide with writes inside the clamped shape. -/
def matrix_identity (size : ℕ) : Matrix F :=
  let m : Matrix F := matrix_create size size
  { m with data := fun i j => if i = j ∧ i < size then 1 else m.data i j }

/-- matrix_set from matrix.c: an in-range index updates the cell, an out
of range index leaves the matrix unchanged (the C function additionally
reports the failure, a flag its EKF callers ignore).  The bounds check
is folded into the cell update so that the row and column counts are
preserved structurally; the result is pointwise identical to the C
behaviour. -/
def matrix_set (m : Matrix F) (row col : ℕ) (value : F) : Matrix F :=
  ⟨m.rows, m.cols, fun i j =>
    if (row < m.rows ∧ col < m.cols) ∧ i = row ∧ j = col then value else m.data i j⟩

/-- matrix_get from matrix.c: none models the failing bounds check, in
which case the C out-parameter is left unwritten. -/
def matrix_get (m : Matrix F) (row col : ℕ) : Option F :=
  if row < m.rows ∧ col < m.cols then some (m.data row col) else none

/-- Value of a matrix_get whose status flag the caller ignores; on a
failed read the C destination variable holds an unspecified value, which
the embedding fixes as 0 (every reachable EKF read is in bounds). -/
def mgetD (m : Matrix F) (row col : ℕ) : F :=
  (matrix_get m row col).getD 0

/-- matrix_add from matrix.c: shape-checked elementwise sum; the result
is created with matrix_create, so cells outside the logical shape are 0. -/
def matrix_add (a b : Matrix F) : Option (Matrix F) :=
  if a.rows = b.rows ∧ a.cols = b.cols then
    some ⟨a.rows, a.cols, fun i j =>
      if i < a.rows ∧ j < a.cols then a.data i j + b.data i j else 0⟩
  else none

/-- matrix_add from matrix.c as executed at the aliased call
matrix_add(&ekf->x, &dx, &ekf->x) in ekf_update_state_covariance
(ekf_update.c line 173, the only call in the tree whose result aliases
an operand): after the dimension check succeeds, the assignment
*result = matrix_create(a->rows, a->cols) overwrites a (which result
aliases) with the zero matrix before the summing loop runs, so every
read of a->data[i][j] inside the loop yields 0 and the call stores
0 + b->data[i][j].  A failed dimension check returns before that
assignment and leaves the destination untouched. -/
def matrix_add_aliased (a b : Matrix F) : Matrix F :=
  if a.rows = b.rows ∧ a.cols = b.cols then
    let fresh : Matrix F := matrix_create a.rows a.cols
    ⟨fresh.rows, fresh.cols, fun i j =>
      if i < fresh.rows ∧ j < fresh.cols then fresh.data i j + b.data i j
      else fresh.data i j⟩
  else a

/-- matrix_subtract from matrix.c. -/
def matrix_subtract (a b : Matrix F) : Option (Matrix F) :=
  if a.rows = b.rows ∧ a.cols = b.cols then
    some ⟨a.rows, a.cols, fun i j =>
      if i < a.rows ∧ j < a.cols then a.data i j - b.data i j else 0⟩
  else none

/-- matrix_multiply from matrix.c: the inner loop accumulates
a.data[i][k] * b.data[k][j] for k below a.cols. -/
def matrix_multiply (a b : Matrix F) : Option (Matrix F) :=
  if a.cols = b.rows then
    some ⟨a.rows, b.cols, fun i j =>
      if i < a.rows ∧ j < b.cols then
        (List.range a.cols).foldl (fun sum k => sum + a.data i k * b.data k j) 0
      else 0⟩
  else none

/-- matrix_scale from matrix.c (always succeeds). -/
def matrix_scale (m : Matrix F) (scalar : F) : Matrix F :=
  ⟨m.rows, m.cols, fun i j =>
    if i < m.rows ∧ j < m.cols then m.data i j * scalar else 0⟩

/-- matrix_transpose from matrix.c (always succeeds). -/
def matrix_transpose (m : Matrix F) : Matrix F :=
  ⟨m.cols, m.rows, fun i j =>
    if i < m.cols ∧ j < m.rows then m.data j i else 0⟩

/-- matrix_zero from matrix.c: zeroes every cell of the logical shape,
leaving cells outside it untouched. -/
def matrix_zero (m : Matrix F) : Matrix F :=
  { m with data := fun i j => if i < m.rows ∧ j < m.cols then 0 else m.data i j }

/-- matrix_diagonal from matrix.c: matrix_zero, then the value on the
diagonal up to min(rows, cols). -/
def matrix_diagonal (m : Matrix F) (value : F) : Matrix F :=
  let z := matrix_zero m
  let min_dim := min m.rows m.cols
  { z with data := fun i j => if i = j ∧ i < min_dim then value else z.data i j }

/-- matrix_diagonal_vector from matrix.c: matrix_zero, then values[i] on
the diagonal up to min(rows, cols, size).  The C float array is modelled
as a Lean list read positionally. -/
def matrix_diagonal_vector (m : Matrix F) (values : List F) (size : ℕ) : Matrix F :=
  let z := matrix_zero m
  let min_dim := min (min m.rows m.cols) size
  { z with data := fun i j => if i = j ∧ i < min_dim then values.getD i 0 else z.data i j }

/-! ### matrix_inverse (matrix.c, lines 166-242)

The Gauss-Jordan elimination works on an augmented matrix requested as
n x 2n whose column count matrix_create clamps to 16, while the loops
index raw storage columns up to 2n-1.  To reason about whether those raw
accesses stay inside the 16 x 16 capacity, every raw access of the
algorithm goes through a capacity-checked read or write in an Except
monad: GJErr.oob signals an access outside the capacity, GJErr.fail
signals the returns-false paths of the C function (non-square input or a
pivot below 1e-6). -/

/-- Failure modes of the embedded matrix_inverse run. -/
inductive GJErr : Type
  | oob  : GJErr
  | fail : GJErr
deriving DecidableEq

/-- Capacity-checked raw read of the augmented storage. -/
def aget (d : ℕ → ℕ → F) (r c : ℕ) : Except GJErr F :=
  if r < MATRIX_MAX_SIZE ∧ c < MATRIX_MAX_SIZE then .ok (d r c) else .error .oob

/-- Capacity-checked raw write of the augmented storage. -/
def aset (d : ℕ → ℕ → F) (r c : ℕ) (v : F) : Except GJErr (ℕ → ℕ → F) :=
  if r < MATRIX_MAX_SIZE ∧ c < MATRIX_MAX_SIZE then
    .ok (fun i j => if i = r ∧ j = c then v else d i j)
  else .error .oob

/-- Pivot search of matrix_inverse for column i: scans rows i+1 to n-1
for the largest absolute value, starting from row i. -/
def gjFindPivot (d : ℕ → ℕ → F) (n i : ℕ) : Except GJErr (ℕ × F) := do
  let v0 ← aget d i i
  (List.range' (i+1) (n - (i+1))).foldlM
    (fun (pm : ℕ × F) j => do
      let v ← aget d j i
      if |v| > pm.2 then pure (j, |v|) else pure pm)
    (i, |v0|)

/-- Row swap of matrix_inverse (executed when the pivot row differs). -/
def gjSwapRows (d : ℕ → ℕ → F) (n i pivot : ℕ) : Except GJErr (ℕ → ℕ → F) :=
  (List.range (2*n)).foldlM
    (fun d j => do
      let temp ← aget d i j
      let pv ← aget d pivot j
      let d ← aset d i j pv
      aset d pivot j temp)
    d

/-- One iteration of the main Gauss-Jordan loop of matrix_inverse:
pivot selection, singularity test, row swap, pivot-row normalization and
elimination of the other rows. -/
def gjStep (n : ℕ) (d : ℕ → ℕ → F) (i : ℕ) : Except GJErr (ℕ → ℕ → F) := do
  let (pivot, max_val) ← gjFindPivot d n i
  if max_val < 1/1000000 then .error .fail
  else
    let d ← if pivot ≠ i then gjSwapRows d n i pivot else pure d
    let pivot_val ← aget d i i
    let d ← (List.range (2*n)).foldlM
      (fun d j => do
        let v ← aget d i j
        aset d i j (v / pivot_val))
      d
    (List.range n).foldlM
      (fun d j =>
        if j ≠ i then do
          let factor ← aget d j i
          (List.range (2*n)).foldlM
            (fun d k => do
              let vjk ← aget d j k
              let vik ← aget d i k
              aset d j k (vjk - factor * vik))
            d
        else pure d)
      d

/-- Full run of matrix_inverse from matrix.c on the capacity-checked
augmented storage: builds [A|I], eliminates, extracts the right half. -/
def matrix_inverse_run (m : Matrix F) : Except GJErr (Matrix F) := do
  if m.rows ≠ m.cols then .error .fail
  else
    let n := m.rows
    let augmented : Matrix F := matrix_create n (2 * n)
    let d ← (List.range n).foldlM
      (fun d i => (List.range n).foldlM (fun d j => aset d i j (m.data i j)) d)
      augmented.data
    let d ← (List.range n).foldlM (fun d i => aset d i (i + n) 1) d
    let d ← (List.range n).foldlM (gjStep n) d
    let result : Matrix F := matrix_create n n
    (List.range n).foldlM
      (fun (r : Matrix F) i =>
        (List.range n).foldlM
          (fun (r : Matrix F) j => do
            let v ← aget d i (j + n)
            pure (matrix_set r i j v))
          r)
      result

/-- matrix_inverse from matrix.c as its callers see it: the boolean
status collapsed into an Option.  A run that leaves the 16 x 16 capacity
is undefined behavior in C and is mapped to a failure here; every call
the EKF performs is on matrices of size 1, 3 or 6 and never reaches it. -/
def matrix_inverse (m : Matrix F) : Option (Matrix F) :=
  match matrix_inverse_run m with
  | .ok r => some r
  | .error _ => none

/-- Shared default used where a C matrix routine fails and its
out-parameter stays uninitialized while the caller ignores the status
flag; every reachable EKF call has matching shapes, so the default is
never observable. -/
def mmulD (a b : Matrix F) : Matrix F :=
  (matrix_multiply a b).getD (matrix_create a.rows b.cols)

/-! ### ekf_init.c -/

/-- ekf_init from ekf_init.c: builds the default filter.  The C function
fills a caller-owned struct and returns true; the embedding returns the
filled struct. -/
def ekf_init : EKF F :=
  let x := matrix_create EKF_STATE_DIM 1
  let P := matrix_diagonal (matrix_create EKF_STATE_DIM EKF_STATE_DIM) 1
  let Q := matrix_diagonal (matrix_create EKF_STATE_DIM EKF_STATE_DIM) (1/100)
  let R_gps := matrix_diagonal_vector (matrix_create 6 6) [5, 5, 10, 1/2, 1/2, 1] 6
  let R_baro := matrix_set (matrix_create 1 1) 0 0 1
  let R_mag := matrix_diagonal (matrix_create 3 3) (1/10)
  { x := x, P := P, Q := Q, R_gps := R_gps, R_baro := R_baro, R_mag := R_mag,
    gravity := 980665/100000,
    earth_mag_ned := vector3f_create (29/100) (-(5/100)) (42/100),
    initialized := false }

/-- Diagonal written into P by ekf_set_initial_state. -/
def init_p_diag : List F :=
  [10, 10, 10, 1, 1, 1, 1/10, 1/10, 1/10, 1/10, 1/100, 1/100, 1/100, 1/10, 1/10, 1/10]

/-- ekf_set_initial_state from ekf_init.c: writes position, velocity and
the normalized quaternion into the state vector, zeroes the biases,
resets P to the documented diagonal and flags the filter initialized. -/
def ekf_set_initial_state (sqrt : F → F) (ekf : EKF F)
    (pos vel : Vector3f F) (q : Quaternion F) : Bool × EKF F :=
  let x := matrix_set ekf.x 0 0 pos.x
  let x := matrix_set x 1 0 pos.y
  let x := matrix_set x 2 0 pos.z
  let x := matrix_set x 3 0 vel.x
  let x := matrix_set x 4 0 vel.y
  let x := matrix_set x 5 0 vel.z
  let qn := quaternion_normalize sqrt q
  let x := matrix_set x 6 0 qn.w
  let x := matrix_set x 7 0 qn.x
  let x := matrix_set x 8 0 qn.y
  let x := matrix_set x 9 0 qn.z
  let x := matrix_set x 10 0 0
  let x := matrix_set x 11 0 0
  let x := matrix_set x 12 0 0
  let x := matrix_set x 13 0 0
  let x := matrix_set x 14 0 0
  let x := matrix_set x 15 0 0
  let P := matrix_diagonal_vector ekf.P init_p_diag EKF_STATE_DIM
  (true, { ekf with x := x, P := P, initialized := true })

/-- ekf_set_process_noise from ekf_init.c: zeroes Q and writes the five
squared standard deviations on the matching diagonal blocks. -/
def ekf_set_process_noise (ekf : EKF F)
    (pos_std vel_std att_std gyro_bias_std acc_bias_std : F) : Bool × EKF F :=
  let Q := matrix_zero ekf.Q
  let Q := matrix_set Q 0 0 (pos_std * pos_std)
  let Q := matrix_set Q 1 1 (pos_std * pos_std)
  let Q := matrix_set Q 2 2 (pos_std * pos_std)
  let Q := matrix_set Q 3 3 (vel_std * vel_std)
  let Q := matrix_set Q 4 4 (vel_std * vel_std)
  let Q := matrix_set Q 5 5 (vel_std * vel_std)
  let Q := matrix_set Q 6 6 (att_std * att_std)
  let Q := matrix_set Q 7 7 (att_std * att_std)
  let Q := matrix_set Q 8 8 (att_std * att_std)
  let Q := matrix_set Q 9 9 (att_std * att_std)
  let Q := matrix_set Q 10 10 (gyro_bias_std * gyro_bias_std)
  let Q := matrix_set Q 11 11 (gyro_bias_std * gyro_bias_std)
  let Q := matrix_set Q 12 12 (gyro_bias_std * gyro_bias_std)
  let Q := matrix_set Q 13 13 (acc_bias_std * acc_bias_std)
  let Q := matrix_set Q 14 14 (acc_bias_std * acc_bias_std)
  let Q := matrix_set Q 15 15 (acc_bias_std * acc_bias_std)
  (true, { ekf with Q := Q })

/-- ekf_set_gps_noise from ekf_init.c. -/
def ekf_set_gps_noise (ekf : EKF F) (pos_std vel_std : F) : Bool × EKF F :=
  let R := matrix_zero ekf.R_gps
  let R := matrix_set R 0 0 (pos_std * pos_std)
  let R := matrix_set R 1 1 (pos_std * pos_std)
  let R := matrix_set R 2 2 (pos_std * pos_std)
  let R := matrix_set R 3 3 (vel_std * vel_std)
  let R := matrix_set R 4 4 (vel_std * vel_std)
  let R := matrix_set R 5 5 (vel_std * vel_std)
  (true, { ekf with R_gps := R })

/-- ekf_set_baro_noise from ekf_init.c. -/
def ekf_set_baro_noise (ekf : EKF F) (baro_std : F) : Bool × EKF F :=
  (true, { ekf with R_baro := matrix_set ekf.R_baro 0 0 (baro_std * baro_std) })

/-- ekf_set_mag_noise from ekf_init.c. -/
def ekf_set_mag_noise (ekf : EKF F) (mag_std : F) : Bool × EKF F :=
  let R := matrix_zero ekf.R_mag
  let R := matrix_set R 0 0 (mag_std * mag_std)
  let R := matrix_set R 1 1 (mag_std * mag_std)
  let R := matrix_set R 2 2 (mag_std * mag_std)
  (true, { ekf with R_mag := R })

/-- ekf_set_earth_magnetic_field from ekf_init.c. -/
def ekf_set_earth_magnetic_field (ekf : EKF F) (mag_ned : Vector3f F) : Bool × EKF F :=
  (true, { ekf with earth_mag_ned := mag_ned })

/-- ekf_get_position from ekf_init.c: the zero vector on an uninitialized
filter, otherwise state components 0..2. -/
def ekf_get_position (ekf : EKF F) : Vector3f F :=
  if ekf.initialized = false then vector3f_zero
  else ⟨mgetD ekf.x 0 0, mgetD ekf.x 1 0, mgetD ekf.x 2 0⟩

/-- ekf_get_velocity from ekf_init.c. -/
def ekf_get_velocity (ekf : EKF F) : Vector3f F :=
  if ekf.initialized = false then vector3f_zero
  else ⟨mgetD ekf.x 3 0, mgetD ekf.x 4 0, mgetD ekf.x 5 0⟩

/-- ekf_get_attitude from ekf_init.c: the identity quaternion on an
uninitialized filter, otherwise the renormalized quaternion sub-state. -/
def ekf_get_attitude (sqrt : F → F) (ekf : EKF F) : Quaternion F :=
  if ekf.initialized = false then quaternion_identity
  else
    quaternion_normalize sqrt
      ⟨mgetD ekf.x 6 0, mgetD ekf.x 7 0, mgetD ekf.x 8 0, mgetD ekf.x 9 0⟩

/-- ekf_get_euler from ekf_init.c: none models the returns-false path on
an uninitialized filter, in which case the C out-parameters are left
unwritten. -/
def ekf_get_euler (p : MathPrims F) (ekf : EKF F) : Option (F × F × F) :=
  if ekf.initialized = false then none
  else some (quaternion_to_euler p (ekf_get_attitude p.sqrt ekf))

/-- ekf_get_gyro_bias from ekf_init.c. -/
def ekf_get_gyro_bias (ekf : EKF F) : Vector3f F :=
  if ekf.initialized = false then vector3f_zero
  else ⟨mgetD ekf.x 10 0, mgetD ekf.x 11 0, mgetD ekf.x 12 0⟩

/-- ekf_get_accel_bias from ekf_init.c. -/
def ekf_get_accel_bias (ekf : EKF F) : Vector3f F :=
  if ekf.initialized = false then vector3f_zero
  else ⟨mgetD ekf.x 13 0, mgetD ekf.x 14 0, mgetD ekf.x 15 0⟩

/-- Diagonal written into P by ekf_reset. -/
def reset_p_diag : List F :=
  [100, 100, 100, 10, 10, 10, 1, 1, 1, 1, 1/100, 1/100, 1/100, 1/10, 1/10, 1/10]

/-- ekf_reset from ekf_init.c: zeroes the state, writes the identity
quaternion scalar, inflates P to the reset diagonal and clears the
initialized flag. -/
def ekf_reset (ekf : EKF F) : Bool × EKF F :=
  let x := matrix_zero ekf.x
  let x := matrix_set x 6 0 1
  let P := matrix_diagonal_vector ekf.P reset_p_diag EKF_STATE_DIM
  (true, { ekf with x := x, P := P, initialized := false })

/-! ### ekf_predict.c -/

/-- ekf_compute_jacobian from ekf_predict.c: the identity with the
position-velocity block, the quaternion-gyro-bias block and the
velocity-accel-bias block written over it.  The quaternion is read from
the state vector and renormalized inline; the function also copies the
velocity and accelerometer-bias states into locals it never uses, reads
that have no effect and are omitted here. -/
def ekf_compute_jacobian (sqrt : F → F) (ekf : EKF F) (dt : F) : Matrix F :=
  let Fm : Matrix F := matrix_identity EKF_STATE_DIM
  let Fm := matrix_set Fm 0 3 dt
  let Fm := matrix_set Fm 1 4 dt
  let Fm := matrix_set Fm 2 5 dt
  let qw := mgetD ekf.x 6 0
  let qx := mgetD ekf.x 7 0
  let qy := mgetD ekf.x 8 0
  let qz := mgetD ekf.x 9 0
  let qnorm := sqrt (qw*qw + qx*qx + qy*qy + qz*qz)
  let qq : F × F × F × F :=
    if qnorm < 1/1000000 then (1, 0, 0, 0)
    else (qw / qnorm, qx / qnorm, qy / qnorm, qz / qnorm)
  let qw := qq.1
  let qx := qq.2.1
  let qy := qq.2.2.1
  let qz := qq.2.2.2
  let Fm := matrix_set Fm 6 10 (-(1/2) * qx * dt)
  let Fm := matrix_set Fm 6 11 (-(1/2) * qy * dt)
  let Fm := matrix_set Fm 6 12 (-(1/2) * qz * dt)
  let Fm := matrix_set Fm 7 10 ((1/2) * qw * dt)
  let Fm := matrix_set Fm 7 11 (-(1/2) * qz * dt)
  let Fm := matrix_set Fm 7 12 ((1/2) * qy * dt)
  let Fm := matrix_set Fm 8 10 ((1/2) * qz * dt)
  let Fm := matrix_set Fm 8 11 ((1/2) * qw * dt)
  let Fm := matrix_set Fm 8 12 (-(1/2) * qx * dt)
  let Fm := matrix_set Fm 9 10 (-(1/2) * qy * dt)
  let Fm := matrix_set Fm 9 11 ((1/2) * qx * dt)
  let Fm := matrix_set Fm 9 12 ((1/2) * qw * dt)
  let R11 := 1 - 2 * (qy*qy + qz*qz)
  let R12 := 2 * (qx*qy - qw*qz)
  let R13 := 2 * (qx*qz + qw*qy)
  let R21 := 2 * (qx*qy + qw*qz)
  let R22 := 1 - 2 * (qx*qx + qz*qz)
  let R23 := 2 * (qy*qz - qw*qx)
  let R31 := 2 * (qx*qz - qw*qy)
  let R32 := 2 * (qy*qz + qw*qx)
  let R33 := 1 - 2 * (qx*qx + qy*qy)
  let Fm := matrix_set Fm 3 13 (-R11 * dt)
  let Fm := matrix_set Fm 3 14 (-R12 * dt)
  let Fm := matrix_set Fm 3 15 (-R13 * dt)
  let Fm := matrix_set Fm 4 13 (-R21 * dt)
  let Fm := matrix_set Fm 4 14 (-R22 * dt)
  let Fm := matrix_set Fm 4 15 (-R23 * dt)
  let Fm := matrix_set Fm 5 13 (-R31 * dt)
  let Fm := matrix_set Fm 5 14 (-R32 * dt)
  let Fm := matrix_set Fm 5 15 (-R33 * dt)
  Fm

/-- State-vector half of ekf_predict (ekf_predict.c lines 124-221):
reads the state, renormalizes the quaternion, integrates attitude,
velocity and position with forward Euler and writes the ten updated
components back.  Biases are not modified. -/
def ekf_predict_state (sqrt : F → F) (ekf : EKF F)
    (gyro accel : Vector3f F) (dt : F) : EKF F :=
  let px := mgetD ekf.x 0 0
  let py := mgetD ekf.x 1 0
  let pz := mgetD ekf.x 2 0
  let vx := mgetD ekf.x 3 0
  let vy := mgetD ekf.x 4 0
  let vz := mgetD ekf.x 5 0
  let qw := mgetD ekf.x 6 0
  let qx := mgetD ekf.x 7 0
  let qy := mgetD ekf.x 8 0
  let qz := mgetD ekf.x 9 0
  let bgx := mgetD ekf.x 10 0
  let bgy := mgetD ekf.x 11 0
  let bgz := mgetD ekf.x 12 0
  let bax := mgetD ekf.x 13 0
  let bay := mgetD ekf.x 14 0
  let baz := mgetD ekf.x 15 0
  let q := quaternion_normalize sqrt (quaternion_create qw qx qy qz)
  let gyro_corrected := vector3f_create (gyro.x - bgx) (gyro.y - bgy) (gyro.z - bgz)
  let accel_corrected := vector3f_create (accel.x - bax) (accel.y - bay) (accel.z - baz)
  let q_dot := quaternion_derivative q gyro_corrected
  let qw := q.w + q_dot.w * dt
  let qx := q.x + q_dot.x * dt
  let qy := q.y + q_dot.y * dt
  let qz := q.z + q_dot.z * dt
  let q := quaternion_normalize sqrt (quaternion_create qw qx qy qz)
  let gravity_ned := vector3f_create 0 0 ekf.gravity
  let accel_ned := quaternion_rotate_vector q accel_corrected
  let accel_ned := vector3f_subtract accel_ned gravity_ned
  let vx := vx + accel_ned.x * dt
  let vy := vy + accel_ned.y * dt
  let vz := vz + accel_ned.z * dt
  let px := px + vx * dt
  let py := py + vy * dt
  let pz := pz + vz * dt
  let x := matrix_set ekf.x 0 0 px
  let x := matrix_set x 1 0 py
  let x := matrix_set x 2 0 pz
  let x := matrix_set x 3 0 vx
  let x := matrix_set x 4 0 vy
  let x := matrix_set x 5 0 vz
  let x := matrix_set x 6 0 q.w
  let x := matrix_set x 7 0 q.x
  let x := matrix_set x 8 0 q.y
  let x := matrix_set x 9 0 q.z
  { ekf with x := x }

/-- Covariance half of ekf_predict (ekf_predict.c lines 225-243),
executed on the filter whose state vector has already been rewritten:
P becomes F P Ft + Q dt. -/
def ekf_predict_covariance (sqrt : F → F) (ekf1 : EKF F) (dt : F) : Matrix F :=
  let Fm := ekf_compute_jacobian sqrt ekf1 dt
  let F_transpose := matrix_transpose Fm
  let temp1 := mmulD Fm ekf1.P
  let temp2 := mmulD temp1 F_transpose
  let scaled_Q := matrix_scale ekf1.Q dt
  (matrix_add temp2 scaled_Q).getD ekf1.P

/-- ekf_predict from ekf_predict.c: guards, then the strapdown state
update followed by the covariance propagation, exactly in the C control
flow (the Jacobian reads the already-updated state vector). -/
def ekf_predict (sqrt : F → F) (ekf : EKF F)
    (gyro accel : Vector3f F) (dt : F) : Bool × EKF F :=
  if dt ≤ 0 then (false, ekf)
  else if ekf.initialized = false then (false, ekf)
  else
    let ekf1 := ekf_predict_state sqrt ekf gyro accel dt
    (true, { ekf1 with P := ekf_predict_covariance sqrt ekf1 dt })

/-! ### ekf_update.c -/

/-- ekf_compute_gps_jacobian from ekf_update.c: a zero 6 x 16 matrix
with identity mappings from positions and velocities. -/
def ekf_compute_gps_jacobian (_ekf : EKF F) : Matrix F :=
  let H := matrix_zero (matrix_create 6 EKF_STATE_DIM)
  let H := matrix_set H 0 0 1
  let H := matrix_set H 1 1 1
  let H := matrix_set H 2 2 1
  let H := matrix_set H 3 3 1
  let H := matrix_set H 4 4 1
  let H := matrix_set H 5 5 1
  H

/-- ekf_compute_baro_jacobian from ekf_update.c: a zero 1 x 16 matrix
with a single 1 at the down-position column. -/
def ekf_compute_baro_jacobian (_ekf : EKF F) : Matrix F :=
  matrix_set (matrix_zero (matrix_create 1 EKF_STATE_DIM)) 0 2 1

/-- ekf_compute_mag_jacobian from ekf_update.c: analytic partials of the
body-frame field prediction with respect to the quaternion states. -/
def ekf_compute_mag_jacobian (ekf : EKF F) : Matrix F :=
  let H := matrix_zero (matrix_create 3 EKF_STATE_DIM)
  let qw := mgetD ekf.x 6 0
  let qx := mgetD ekf.x 7 0
  let qy := mgetD ekf.x 8 0
  let qz := mgetD ekf.x 9 0
  let mx := ekf.earth_mag_ned.x
  let my := ekf.earth_mag_ned.y
  let mz := ekf.earth_mag_ned.z
  let H := matrix_set H 0 6 (2 * (-(qz*my) + qy*mz))
  let H := matrix_set H 1 6 (2 * (qz*mx - qx*mz))
  let H := matrix_set H 2 6 (2 * (-(qy*mx) + qx*my))
  let H := matrix_set H 0 7 (2 * (qy*my + qz*mz))
  let H := matrix_set H 1 7 (2 * (qy*mx - 2*qx*my - qw*mz))
  let H := matrix_set H 2 7 (2 * (qz*mx + qw*my - 2*qx*mz))
  let H := matrix_set H 0 8 (2 * (-(2*qy*mx) + qx*my + qw*mz))
  let H := matrix_set H 1 8 (2 * (qx*mx + qz*mz))
  let H := matrix_set H 2 8 (2 * (-(qw*mx) + qz*my - 2*qy*mz))
  let H := matrix_set H 0 9 (2 * (-(2*qz*mx) - qw*my + qx*mz))
  let H := matrix_set H 1 9 (2 * (qw*mx - 2*qz*my + qy*mz))
  let H := matrix_set H 2 9 (2 * (qx*mx + qy*my))
  H

/-- Innovation covariance S = H P Ht + R that ekf_compute_kalman_gain
builds before inverting (ekf_update.c lines 132-139). -/
def ekf_innovation_S (ekf : EKF F) (H R : Matrix F) : Matrix F :=
  let H_transpose := matrix_transpose H
  let temp1 := mmulD H ekf.P
  let temp2 := mmulD temp1 H_transpose
  (matrix_add temp2 R).getD (matrix_create temp2.rows temp2.cols)

/-- ekf_compute_kalman_gain from ekf_update.c: none models the
returns-false path taken when matrix_inverse of S fails. -/
def ekf_compute_kalman_gain (ekf : EKF F) (H R : Matrix F) : Option (Matrix F) :=
  let H_transpose := matrix_transpose H
  let S := ekf_innovation_S ekf H R
  match matrix_inverse S with
  | none => none
  | some S_inv =>
      let temp3 := mmulD ekf.P H_transpose
      some (mmulD temp3 S_inv)

/-- ekf_update_state_covariance from ekf_update.c: the intended state
correction is x + K y, but the call matrix_add(&ekf->x, &dx, &ekf->x)
aliases its result with operand a, so the program actually assigns
x := K y (see matrix_add_aliased); then quaternion renormalization,
covariance update (I - K H) P and symmetrization. -/
def ekf_update_state_covariance (sqrt : F → F) (ekf : EKF F)
    (K y H : Matrix F) : Bool × EKF F :=
  let dx := mmulD K y
  let x1 := matrix_add_aliased ekf.x dx
  let qw := mgetD x1 6 0
  let qx := mgetD x1 7 0
  let qy := mgetD x1 8 0
  let qz := mgetD x1 9 0
  let q := quaternion_normalize sqrt (quaternion_create qw qx qy qz)
  let x2 := matrix_set x1 6 0 q.w
  let x3 := matrix_set x2 7 0 q.x
  let x4 := matrix_set x3 8 0 q.y
  let x5 := matrix_set x4 9 0 q.z
  let I := matrix_identity EKF_STATE_DIM
  let KH := mmulD K H
  let I_KH := (matrix_subtract I KH).getD (matrix_create I.rows I.cols)
  let P_new := mmulD I_KH ekf.P
  let P_transpose := matrix_transpose P_new
  let P2 := (matrix_add P_new P_transpose).getD P_new
  let P3 := matrix_scale P2 (1/2)
  (true, { ekf with x := x5, P := P3 })

/-- ekf_update_gps from ekf_update.c. -/
def ekf_update_gps (sqrt : F → F) (ekf : EKF F) (pos vel : Vector3f F) : Bool × EKF F :=
  if ekf.initialized = false then (false, ekf)
  else
    let H := ekf_compute_gps_jacobian ekf
    let pos_pred := ekf_get_position ekf
    let vel_pred := ekf_get_velocity ekf
    let z := matrix_create 6 1
    let z_pred := matrix_create 6 1
    let z := matrix_set z 0 0 pos.x
    let z := matrix_set z 1 0 pos.y
    let z := matrix_set z 2 0 pos.z
    let z := matrix_set z 3 0 vel.x
    let z := matrix_set z 4 0 vel.y
    let z := matrix_set z 5 0 vel.z
    let z_pred := matrix_set z_pred 0 0 pos_pred.x
    let z_pred := matrix_set z_pred 1 0 pos_pred.y
    let z_pred := matrix_set z_pred 2 0 pos_pred.z
    let z_pred := matrix_set z_pred 3 0 vel_pred.x
    let z_pred := matrix_set z_pred 4 0 vel_pred.y
    let z_pred := matrix_set z_pred 5 0 vel_pred.z
    let y := (matrix_subtract z z_pred).getD (matrix_create z.rows z.cols)
    match ekf_compute_kalman_gain ekf H ekf.R_gps with
    | none => (false, ekf)
    | some K => ekf_update_state_covariance sqrt ekf K y H

/-- ekf_update_baro from ekf_update.c. -/
def ekf_update_baro (sqrt : F → F) (ekf : EKF F) (altitude : F) : Bool × EKF F :=
  if ekf.initialized = false then (false, ekf)
  else
    let H := ekf_compute_baro_jacobian ekf
    let pos_pred := ekf_get_position ekf
    let z := matrix_set (matrix_create 1 1) 0 0 altitude
    let z_pred := matrix_set (matrix_create 1 1) 0 0 pos_pred.z
    let y := (matrix_subtract z z_pred).getD (matrix_create z.rows z.cols)
    match ekf_compute_kalman_gain ekf H ekf.R_baro with
    | none => (false, ekf)
    | some K => ekf_update_state_covariance sqrt ekf K y H

/-- ekf_update_mag from ekf_update.c. -/
def ekf_update_mag (sqrt : F → F) (ekf : EKF F) (mag : Vector3f F) : Bool × EKF F :=
  if ekf.initialized = false then (false, ekf)
  else
    let H := ekf_compute_mag_jacobian ekf
    let q := ekf_get_attitude sqrt ekf
    let mag_pred := quaternion_rotate_vector_inverse q ekf.earth_mag_ned
    let z := matrix_create 3 1
    let z_pred := matrix_create 3 1
    let z := matrix_set z 0 0 mag.x
    let z := matrix_set z 1 0 mag.y
    let z := matrix_set z 2 0 mag.z
    let z_pred := matrix_set z_pred 0 0 mag_pred.x
    let z_pred := matrix_set z_pred 1 0 mag_pred.y
    let z_pred := matrix_set z_pred 2 0 mag_pred.z
    let y := (matrix_subtract z z_pred).getD (matrix_create z.rows z.cols)
    match ekf_compute_kalman_gain ekf H ekf.R_mag with
    | none => (false, ekf)
    | some K => ekf_update_state_covariance sqrt ekf K y H

/-! ### Specification-side definitions

The following definitions are written from the wording of the
specification and of the claims, to be compared with the source
embedding above. -/

/-- Observer for the quaternion sub-state at indices 6..9 of the state
vector. -/
def stateQuat (ekf : EKF F) : Quaternion F :=
  ⟨mgetD ekf.x 6 0, mgetD ekf.x 7 0, mgetD ekf.x 8 0, mgetD ekf.x 9 0⟩

/-- Squared Euclidean norm of a quaternion. -/
def quatNormSq (q : Quaternion F) : F :=
  q.w * q.w + q.x * q.x + q.y * q.y + q.z * q.z

/-- Well-formed filter shapes: the state vector is 16 x 1 and the
covariance and process-noise matrices are 16 x 16, as every filter
produced by ekf_init has them. -/
def ekf_wf (ekf : EKF F) : Prop :=
  ekf.x.rows = 16 ∧ ekf.x.cols = 1 ∧ ekf.P.rows = 16 ∧ ekf.P.cols = 16 ∧
  ekf.Q.rows = 16 ∧ ekf.Q.cols = 16

instance (ekf : EKF F) : Decidable (ekf_wf ekf) := by
  unfold ekf_wf; infer_instance

/-- Mathematical matrix product with the same shape bookkeeping as the
source routines (spec side of the covariance-propagation claim). -/
def matMulSpec (A B : Matrix F) : Matrix F :=
  ⟨A.rows, B.cols, fun i j =>
    if i < A.rows ∧ j < B.cols then ∑ k ∈ Finset.range A.cols, A.data i k * B.data k j
    else 0⟩

/-- Mathematical matrix sum (spec side). -/
def matAddSpec (A B : Matrix F) : Matrix F :=
  ⟨A.rows, A.cols, fun i j =>
    if i < A.rows ∧ j < A.cols then A.data i j + B.data i j else 0⟩

/-- Mathematical scalar multiple (spec side). -/
def matScaleSpec (A : Matrix F) (c : F) : Matrix F :=
  ⟨A.rows, A.cols, fun i j =>
    if i < A.rows ∧ j < A.cols then A.data i j * c else 0⟩

/-- Mathematical transpose (spec side). -/
def matTransposeSpec (A : Matrix F) : Matrix F :=
  ⟨A.cols, A.rows, fun i j =>
    if i < A.cols ∧ j < A.rows then A.data j i else 0⟩

/-- Propagation Jacobian exactly as claim C5 words it: the 16 x 16
identity plus the dt block mapping velocities into positions, the 4 x 3
attitude block against the gyro-bias columns and the negated
body-to-NED rotation matrix times dt against the accel-bias columns,
with q the normalized state quaternion.  The entry layout mirrors the
write order of the source so that the comparison is entrywise. -/
def jacobianSpec (q : Quaternion F) (dt : F) : Matrix F :=
  ⟨16, 16, fun i j =>
    if i = 5 ∧ j = 15 then -(1 - 2 * (q.x*q.x + q.y*q.y)) * dt
    else if i = 5 ∧ j = 14 then -(2 * (q.y*q.z + q.w*q.x)) * dt
    else if i = 5 ∧ j = 13 then -(2 * (q.x*q.z - q.w*q.y)) * dt
    else if i = 4 ∧ j = 15 then -(2 * (q.y*q.z - q.w*q.x)) * dt
    else if i = 4 ∧ j = 14 then -(1 - 2 * (q.x*q.x + q.z*q.z)) * dt
    else if i = 4 ∧ j = 13 then -(2 * (q.x*q.y + q.w*q.z)) * dt
    else if i = 3 ∧ j = 15 then -(2 * (q.x*q.z + q.w*q.y)) * dt
    else if i = 3 ∧ j = 14 then -(2 * (q.x*q.y - q.w*q.z)) * dt
    else if i = 3 ∧ j = 13 then -(1 - 2 * (q.y*q.y + q.z*q.z)) * dt
    else if i = 9 ∧ j = 12 then (1/2) * q.w * dt
    else if i = 9 ∧ j = 11 then (1/2) * q.x * dt
    else if i = 9 ∧ j = 10 then -(1/2) * q.y * dt
    else if i = 8 ∧ j = 12 then -(1/2) * q.x * dt
    else if i = 8 ∧ j = 11 then (1/2) * q.w * dt
    else if i = 8 ∧ j = 10 then (1/2) * q.z * dt
    else if i = 7 ∧ j = 12 then (1/2) * q.y * dt
    else if i = 7 ∧ j = 11 then -(1/2) * q.z * dt
    else if i = 7 ∧ j = 10 then (1/2) * q.w * dt
    else if i = 6 ∧ j = 12 then -(1/2) * q.z * dt
    else if i = 6 ∧ j = 11 then -(1/2) * q.y * dt
    else if i = 6 ∧ j = 10 then -(1/2) * q.x * dt
    else if i = 2 ∧ j = 5 then dt
    else if i = 1 ∧ j = 4 then dt
    else if i = 0 ∧ j = 3 then dt
    else if i = j ∧ i < 16 then 1 else 0⟩

/-- Velocity update as claim C2 words it (the spec tie-break): the
bias-corrected accelerometer vector is rotated by the quaternion from
before the integration step, gravity is removed and the velocity is
advanced by dt. -/
def predict_vel_spec_pre (sqrt : F → F) (ekf : EKF F)
    (accel : Vector3f F) (dt : F) : Vector3f F :=
  let q0 := quaternion_normalize sqrt (stateQuat ekf)
  let accel_c := vector3f_create (accel.x - mgetD ekf.x 13 0)
                                 (accel.y - mgetD ekf.x 14 0)
                                 (accel.z - mgetD ekf.x 15 0)
  let a_ned := vector3f_subtract (quaternion_rotate_vector q0 accel_c)
                                 (vector3f_create 0 0 ekf.gravity)
  vector3f_create (mgetD ekf.x 3 0 + a_ned.x * dt)
                  (mgetD ekf.x 4 0 + a_ned.y * dt)
                  (mgetD ekf.x 5 0 + a_ned.z * dt)

/-- Error-avoiding postcondition semantics over Except: the computation
does not fail with error e, and a normal result satisfies P. -/
def ExceptP (e : GJErr) (P : α → Prop) : Except GJErr α → Prop := fun x =>
  match x with
  | .ok a => P a
  | .error e2 => e2 ≠ e

/-! ### Concrete instances used by counterexamples and witnesses -/

/-- Rational stand-in for sqrtf that agrees with the true square root at
every argument on which the concrete runs below evaluate it: 0, 1,
25/16, 25 and 10^-14 are all squares of rationals. -/
def sqrtStub (x : ℚ) : ℚ :=
  if x = 1 then 1
  else if x = 25/16 then 5/4
  else if x = 25 then 5
  else if x = 1/100000000000000 then 1/10000000
  else 0

/-- Trivial transcendental primitives for concrete runs whose euler
outputs are never inspected. -/
def primsStub : MathPrims ℚ :=
  ⟨sqrtStub, fun _ _ => 0, fun _ => 0, 0⟩

/-- A concrete initialized filter: default construction followed by
ekf_set_initial_state at the origin with the identity attitude. -/
def ekfQ : EKF ℚ :=
  (ekf_set_initial_state sqrtStub (ekf_init (F := ℚ))
    (vector3f_create 0 0 0) (vector3f_create 0 0 0)
    (quaternion_create 1 0 0 0)).2

/-- A concrete initialized filter one unit north of the origin: default
construction followed by ekf_set_initial_state at position (1, 0, 0)
with the identity attitude. -/
def ekfC6 : EKF ℚ :=
  (ekf_set_initial_state sqrtStub (ekf_init (F := ℚ))
    (vector3f_create 1 0 0) (vector3f_create 0 0 0)
    (quaternion_create 1 0 0 0)).2

/-- A concrete initialized filter whose covariance and noise matrices
are all zero, which makes every innovation covariance singular. -/
def ekfSing : EKF ℚ :=
  { x := matrix_create 16 1, P := matrix_create 16 16, Q := matrix_create 16 16,
    R_gps := matrix_create 6 6, R_baro := matrix_create 1 1, R_mag := matrix_create 3 3,
    gravity := 0, earth_mag_ned := vector3f_create 0 0 0, initialized := true }

/-- Concrete gyro input used by the C2 counterexample. -/
def gyroC2 : Vector3f ℚ := vector3f_create (3/2) 0 0

/-- Concrete accelerometer input used by the C2 counterexample. -/
def accelC2 : Vector3f ℚ := vector3f_create 0 1 0

/-! ### Structural lemmas about the matrix primitives -/

@[simp] theorem MATRIX_MAX_SIZE_eq : MATRIX_MAX_SIZE = 16 := rfl

@[simp] theorem EKF_STATE_DIM_eq : EKF_STATE_DIM = 16 := rfl

@[simp] theorem matrix_set_rows (m : Matrix F) (r c : ℕ) (v : F) :
    (matrix_set m r c v).rows = m.rows := rfl

@[simp] theorem matrix_set_cols (m : Matrix F) (r c : ℕ) (v : F) :
    (matrix_set m r c v).cols = m.cols := rfl

theorem matrix_set_data (m : Matrix F) (r c : ℕ) (v : F) (i j : ℕ) :
    (matrix_set m r c v).data i j =
      if (r < m.rows ∧ c < m.cols) ∧ i = r ∧ j = c then v else m.data i j := rfl

@[simp] theorem mgetD_eq (m : Matrix F) (r c : ℕ) :
    mgetD m r c = if r < m.rows ∧ c < m.cols then m.data r c else 0 := by
  unfold mgetD matrix_get; split <;> simp_all

@[simp] theorem matrix_zero_rows (m : Matrix F) : (matrix_zero m).rows = m.rows := rfl

@[simp] theorem matrix_zero_cols (m : Matrix F) : (matrix_zero m).cols = m.cols := rfl

@[simp] theorem matrix_diagonal_vector_rows (m : Matrix F) (vs : List F) (s : ℕ) :
    (matrix_diagonal_vector m vs s).rows = m.rows := rfl

@[simp] theorem matrix_diagonal_vector_cols (m : Matrix F) (vs : List F) (s : ℕ) :
    (matrix_diagonal_vector m vs s).cols = m.cols := rfl

/-! ### Claim C7 -/

/-- C7 (amended): on an uninitialized filter the five value-returning
accessors return the neutral value without any failure channel, while
ekf_get_euler signals failure and writes nothing. -/
theorem c7_uninit_accessors_neutral (p : MathPrims F) (ekf : EKF F)
    (h : ekf.initialized = false) :
    ekf_get_position ekf = vector3f_zero ∧
    ekf_get_velocity ekf = vector3f_zero ∧
    ekf_get_attitude p.sqrt ekf = quaternion_identity ∧
    ekf_get_gyro_bias ekf = vector3f_zero ∧
    ekf_get_accel_bias ekf = vector3f_zero ∧
    ekf_get_euler p ekf = none := by
  simp [ekf_get_position, ekf_get_velocity, ekf_get_attitude, ekf_get_gyro_bias,
    ekf_get_accel_bias, ekf_get_euler, h]

/-- C7 counterexample: the freshly constructed filter is uninitialized,
and on it ekf_get_euler reports failure (the C function returns false
and leaves its out-parameters unwritten) instead of returning a neutral
value without failure as the claim states for every query accessor. -/
theorem c7_counterexample_get_euler_fails :
    (ekf_init (F := ℚ)).initialized = false ∧
    ekf_get_euler primsStub (ekf_init (F := ℚ)) = none :=
  ⟨rfl, rfl⟩

/-- C7 witness: the amended statement applied to the freshly constructed
filter. -/
theorem c7_witness :
    ekf_get_position (ekf_init (F := ℚ)) = vector3f_zero ∧
    ekf_get_euler primsStub (ekf_init (F := ℚ)) = none :=
  ⟨(c7_uninit_accessors_neutral primsStub (ekf_init (F := ℚ)) rfl).1,
   (c7_uninit_accessors_neutral primsStub (ekf_init (F := ℚ)) rfl).2.2.2.2.2⟩

/-! ### Claim C8 -/

/-- C8: for every well-shaped filter in any state, ekf_reset succeeds
and afterwards the filter is uninitialized, the state vector is zero
except for a unit quaternion scalar at index 6, and P is the documented
reset diagonal (100, 100, 100, 10, 10, 10, 1, 1, 1, 1, 0.01, 0.01,
0.01, 0.1, 0.1, 0.1). -/
theorem c8_reset_contract (ekf : EKF F)
    (hxr : ekf.x.rows = 16) (hxc : ekf.x.cols = 1)
    (hPr : ekf.P.rows = 16) (hPc : ekf.P.cols = 16) :
    (ekf_reset ekf).1 = true ∧
    (ekf_reset ekf).2.initialized = false ∧
    (∀ i, i < 16 → (ekf_reset ekf).2.x.data i 0 = if i = 6 then 1 else 0) ∧
    (∀ i j, i < 16 → j < 16 →
      (ekf_reset ekf).2.P.data i j =
        if i = j then
          (if i < 3 then 100 else if i < 6 then 10 else if i < 10 then 1
           else if i < 13 then 1/100 else 1/10)
        else 0) := by
  refine ⟨rfl, rfl, ?_, ?_⟩
  · intro i hi
    simp only [ekf_reset, matrix_set_data, matrix_zero_rows, matrix_zero_cols, hxr, hxc]
    by_cases h6 : i = 6
    · simp [h6]
    · simp [h6, matrix_zero, hxr, hxc, hi]
  · intro i j hi hj
    simp only [ekf_reset, matrix_diagonal_vector, matrix_zero, hPr, hPc]
    by_cases hij : i = j
    · subst hij
      simp only [hi, and_self, if_true, min_self, reset_p_diag]
      interval_cases i <;> norm_num
    · simp [hij, hi, hj]

/-- C8 witness: the reset contract evaluated on the freshly constructed
filter, whose shapes are the well-formed ones. -/
theorem c8_witness :
    (ekf_reset (ekf_init (F := ℚ))).1 = true ∧
    (ekf_reset (ekf_init (F := ℚ))).2.x.data 6 0 = 1 ∧
    (ekf_reset (ekf_init (F := ℚ))).2.P.data 0 0 = 100 := by
  refine ⟨(c8_reset_contract (ekf_init (F := ℚ)) rfl rfl rfl rfl).1, ?_, ?_⟩
  · have h := (c8_reset_contract (ekf_init (F := ℚ)) rfl rfl rfl rfl).2.2.1 6 (by norm_num)
    simpa using h
  · have h := (c8_reset_contract (ekf_init (F := ℚ)) rfl rfl rfl rfl).2.2.2 0 0 (by norm_num) (by norm_num)
    simpa using h

/-! ### Claim C9 -/

/-- C9 counterexample: on the nonzero vector (10^-7, 0, 0), whose
magnitude 10^-7 is exactly representable, the vector3f_normalize
compiled in quaternion.c returns the zero vector while the one in
vector3f.c returns the input unchanged, so the two definitions are not
extensionally equal. -/
theorem c9_counterexample_near_zero :
    QuatC.vector3f_normalize sqrtStub (vector3f_create (1/10000000) 0 0) ≠
    Vec3C.vector3f_normalize sqrtStub (vector3f_create (1/10000000) 0 0) := by
  norm_num [QuatC.vector3f_normalize, Vec3C.vector3f_normalize, vector3f_magnitude,
    sqrtStub, vector3f_create, vector3f_zero]

/-- C9 (amended): the two definitions of vector3f_normalize agree on
every vector whose magnitude exceeds the 1e-6 threshold; they differ on
some nonzero vectors at or below it. -/
theorem c9_normalize_agree_above_threshold (sqrt : F → F) (v : Vector3f F)
    (h : 1/1000000 < vector3f_magnitude sqrt v) :
    QuatC.vector3f_normalize sqrt v = Vec3C.vector3f_normalize sqrt v := by
  unfold QuatC.vector3f_normalize Vec3C.vector3f_normalize
  rw [if_neg (not_lt.mpr (le_of_lt h)), if_pos h]

/-- C9 witness: agreement at the vector (3, 4, 0) of magnitude 5. -/
theorem c9_witness :
    1/1000000 < vector3f_magnitude sqrtStub (vector3f_create 3 4 0) ∧
    QuatC.vector3f_normalize sqrtStub (vector3f_create 3 4 0) =
      Vec3C.vector3f_normalize sqrtStub (vector3f_create 3 4 0) :=
  ⟨by norm_num [vector3f_magnitude, sqrtStub, vector3f_create],
   c9_normalize_agree_above_threshold sqrtStub _
     (by norm_num [vector3f_magnitude, sqrtStub, vector3f_create])⟩

/-! ### Evaluation toolkit -/

theorem foldl_add_eq_sum (n : ℕ) (f : ℕ → F) :
    (List.range n).foldl (fun s k => s + f k) 0 = ∑ k ∈ Finset.range n, f k := by
  induction n with
  | zero => simp
  | succ n ih =>
      rw [List.range_succ, List.foldl_append, ih, Finset.sum_range_succ]
      simp

theorem foldl_add_eq_zero (n : ℕ) (f : ℕ → F) (h : ∀ k, k < n → f k = 0) :
    (List.range n).foldl (fun s k => s + f k) 0 = 0 := by
  rw [foldl_add_eq_sum]
  exact Finset.sum_eq_zero fun k hk => h k (Finset.mem_range.mp hk)

theorem mmulD_rows (a b : Matrix F) (h : a.rows ≤ 16) : (mmulD a b).rows = a.rows := by
  unfold mmulD matrix_multiply
  split
  · rfl
  · simp [matrix_create]; omega

theorem mmulD_cols (a b : Matrix F) (h : b.cols ≤ 16) : (mmulD a b).cols = b.cols := by
  unfold mmulD matrix_multiply
  split
  · rfl
  · simp [matrix_create]; omega

/-- A product whose right factor has an all-zero column has that column
zero, whatever the shapes are. -/
theorem mmulD_zero_col (K y : Matrix F) (hy : ∀ k, k < y.rows → y.data k 0 = 0)
    (i : ℕ) : (mmulD K y).data i 0 = 0 := by
  unfold mmulD matrix_multiply
  split
  · rename_i h
    simp only [Option.getD_some]
    by_cases hb : i < K.rows ∧ 0 < y.cols
    · simp only [hb, if_true]
      exact foldl_add_eq_zero _ _ fun k hk => by
        rw [hy k (h ▸ hk), mul_zero]
    · simp [hb]
  · simp [matrix_create]

/-- The aliased add preserves a row count within the capacity (the
zeroing matrix_create clamps at 16). -/
theorem addA_rows (a b : Matrix F) (h : a.rows ≤ 16) :
    (matrix_add_aliased a b).rows = a.rows := by
  unfold matrix_add_aliased matrix_create MATRIX_MAX_SIZE
  split
  · dsimp only
    split <;> omega
  · rfl

/-- The aliased add preserves a column count within the capacity. -/
theorem addA_cols (a b : Matrix F) (h : a.cols ≤ 16) :
    (matrix_add_aliased a b).cols = a.cols := by
  unfold matrix_add_aliased matrix_create MATRIX_MAX_SIZE
  split
  · dsimp only
    split <;> omega
  · rfl

/-- When the shapes match, a cell of the aliased add where the second
operand is zero is zero: the first operand was zeroed before summing. -/
theorem addA_data_zero_right (a b : Matrix F) (hr : a.rows = b.rows)
    (hc : a.cols = b.cols) (i j : ℕ) (hb : b.data i j = 0) :
    (matrix_add_aliased a b).data i j = 0 := by
  unfold matrix_add_aliased
  rw [if_pos ⟨hr, hc⟩]
  dsimp only [matrix_create]
  rw [hb]
  simp

/-- Renormalizing an exactly unit quaternion is the identity when the
square root is exact at 1. -/
theorem quaternion_normalize_of_unit (sqrt : F → F) (h1 : sqrt 1 = 1)
    (q : Quaternion F) (hq : quatNormSq q = 1) :
    quaternion_normalize sqrt q = q := by
  unfold quaternion_normalize quaternion_magnitude
  have hs : q.w * q.w + q.x * q.x + q.y * q.y + q.z * q.z = 1 := hq
  rw [hs, h1, if_neg (by norm_num)]
  cases q
  simp

/-- Renormalization always yields an exactly unit quaternion when the
square root is exact on nonnegatives. -/
theorem quatNormSq_normalize (sqrt : F → F)
    (hsq : ∀ a : F, 0 ≤ a → sqrt a * sqrt a = a) (q : Quaternion F) :
    quatNormSq (quaternion_normalize sqrt q) = 1 := by
  have hs0 : (0:F) ≤ q.w * q.w + q.x * q.x + q.y * q.y + q.z * q.z :=
    add_nonneg (add_nonneg (add_nonneg (mul_self_nonneg q.w) (mul_self_nonneg q.x))
      (mul_self_nonneg q.y)) (mul_self_nonneg q.z)
  have hss := hsq _ hs0
  unfold quaternion_normalize quaternion_magnitude
  by_cases h : sqrt (q.w * q.w + q.x * q.x + q.y * q.y + q.z * q.z) < 1/1000000
  · rw [if_pos h]
    simp [quatNormSq, quaternion_identity]
  · rw [if_neg h]
    have hm : sqrt (q.w * q.w + q.x * q.x + q.y * q.y + q.z * q.z) ≠ 0 := by
      intro hz
      rw [hz] at h
      exact h (by norm_num)
    have hsumne : q.w * q.w + q.x * q.x + q.y * q.y + q.z * q.z ≠ 0 := by
      rw [← hss]
      exact mul_ne_zero hm hm
    dsimp only [quatNormSq]
    have expand :
        q.w * (1 / sqrt (q.w * q.w + q.x * q.x + q.y * q.y + q.z * q.z)) *
          (q.w * (1 / sqrt (q.w * q.w + q.x * q.x + q.y * q.y + q.z * q.z))) +
        q.x * (1 / sqrt (q.w * q.w + q.x * q.x + q.y * q.y + q.z * q.z)) *
          (q.x * (1 / sqrt (q.w * q.w + q.x * q.x + q.y * q.y + q.z * q.z))) +
        q.y * (1 / sqrt (q.w * q.w + q.x * q.x + q.y * q.y + q.z * q.z)) *
          (q.y * (1 / sqrt (q.w * q.w + q.x * q.x + q.y * q.y + q.z * q.z))) +
        q.z * (1 / sqrt (q.w * q.w + q.x * q.x + q.y * q.y + q.z * q.z)) *
          (q.z * (1 / sqrt (q.w * q.w + q.x * q.x + q.y * q.y + q.z * q.z))) =
        (q.w * q.w + q.x * q.x + q.y * q.y + q.z * q.z) *
          (1 / (sqrt (q.w * q.w + q.x * q.x + q.y * q.y + q.z * q.z) *
                sqrt (q.w * q.w + q.x * q.x + q.y * q.y + q.z * q.z))) := by
      ring
    rw [expand, hss, one_div, mul_inv_cancel₀ hsumne]

/-! ### Claim C1 -/

theorem except_bind_ok {α β : Type} (a : α) (f : α → Except GJErr β) :
    (Except.ok a >>= f) = f a := rfl

theorem except_bind_error {α β : Type} (e : GJErr) (f : α → Except GJErr β) :
    ((Except.error e : Except GJErr α) >>= f) = Except.error e := rfl

theorem except_pure_eq {α : Type} (a : α) : (pure a : Except GJErr α) = Except.ok a := rfl

theorem aget_eq (d : ℕ → ℕ → F) (r c : ℕ) :
    aget d r c = if r < 16 ∧ c < 16 then Except.ok (d r c) else Except.error GJErr.oob := rfl

theorem aset_eq (d : ℕ → ℕ → F) (r c : ℕ) (v : F) :
    aset d r c v =
      if r < 16 ∧ c < 16 then Except.ok (fun i j => if i = r ∧ j = c then v else d i j)
      else Except.error GJErr.oob := rfl

theorem list_range_one : List.range 1 = [0] := rfl

/-- Inversion of a 1 x 1 matrix whose single entry is zero fails: the
pivot search finds magnitude 0, below the 1e-6 singularity threshold. -/
theorem matrix_inverse_one_zero (m : Matrix F) (hr : m.rows = 1) (hc : m.cols = 1)
    (h0 : m.data 0 0 = 0) :
    matrix_inverse m = none := by
  have hpos : (0:F) < 1/1000000 := by norm_num
  unfold matrix_inverse matrix_inverse_run
  rw [hr, hc]
  simp [list_range_one, List.foldlM_cons, List.foldlM_nil, List.range',
    gjStep, gjFindPivot, aget_eq, aset_eq, matrix_create,
    except_bind_ok, except_bind_error, except_pure_eq, h0, hpos]

/-- A failed inversion of S makes ekf_compute_kalman_gain report
failure. -/
theorem kalman_gain_none (ekf : EKF F) (H R : Matrix F)
    (h : matrix_inverse (ekf_innovation_S ekf H R) = none) :
    ekf_compute_kalman_gain ekf H R = none := by
  have e1 : ekf_compute_kalman_gain ekf H R =
      match matrix_inverse (ekf_innovation_S ekf H R) with
      | none => none
      | some S_inv => some (mmulD (mmulD ekf.P (matrix_transpose H)) S_inv) := rfl
  rw [e1, h]

/-- C1: on an initialized filter, when the inversion of the innovation
covariance S fails inside a measurement update, the update returns false
and the filter (state vector and covariance included) is returned
exactly unchanged, for each of the GPS, barometer and magnetometer
updates. -/
theorem c1_update_abort_preserves_state (sqrt : F → F) (ekf : EKF F)
    (hinit : ekf.initialized = true) :
    (∀ pos vel,
      matrix_inverse (ekf_innovation_S ekf (ekf_compute_gps_jacobian ekf) ekf.R_gps) = none →
      ekf_update_gps sqrt ekf pos vel = (false, ekf)) ∧
    (∀ altitude,
      matrix_inverse (ekf_innovation_S ekf (ekf_compute_baro_jacobian ekf) ekf.R_baro) = none →
      ekf_update_baro sqrt ekf altitude = (false, ekf)) ∧
    (∀ mag,
      matrix_inverse (ekf_innovation_S ekf (ekf_compute_mag_jacobian ekf) ekf.R_mag) = none →
      ekf_update_mag sqrt ekf mag = (false, ekf)) := by
  refine ⟨fun pos vel h => ?_, fun altitude h => ?_, fun mag h => ?_⟩
  · have hg := kalman_gain_none _ _ _ h
    unfold ekf_update_gps
    rw [hinit, if_neg (by simp)]
    simp only [hg]
  · have hg := kalman_gain_none _ _ _ h
    unfold ekf_update_baro
    rw [hinit, if_neg (by simp)]
    simp only [hg]
  · have hg := kalman_gain_none _ _ _ h
    unfold ekf_update_mag
    rw [hinit, if_neg (by simp)]
    simp only [hg]

/-- C1 witness: on the concrete initialized filter with zero covariance
and zero barometer noise, the barometer innovation covariance is the
zero 1 x 1 matrix, its inversion fails and ekf_update_baro returns false
with the filter unchanged. -/
theorem c1_witness :
    ekf_update_baro sqrtStub ekfSing (-15) = (false, ekfSing) :=
  (c1_update_abort_preserves_state sqrtStub ekfSing rfl).2.1 (-15)
    (matrix_inverse_one_zero _ rfl rfl
      (by
        simp only [ekf_innovation_S, ekfSing, ekf_compute_baro_jacobian]
        simp only [matrix_create, matrix_zero, matrix_set_data, mmulD, matrix_multiply,
          matrix_transpose, matrix_add]
        norm_num [foldl_add_eq_zero]))

/-! ### Claim C6 -/

/-- C6 (code bug): the claim says a zero-innovation update changes each
state component by at most 1e-6.  In the source the state correction is
matrix_add(&ekf->x, &dx, &ekf->x), whose result aliases the first
operand; matrix_add overwrites the destination with matrix_create's
zero matrix before its summing loop, so the loop reads zeros for the
old state and the program assigns x := K*y instead of x + K*y.  With a
zero innovation the state is wiped: on the concrete initialized filter
at position (1, 0, 0) with a unit attitude quaternion, a zero gain and
an all-zero 6 x 1 innovation, the step reports success yet the north
position component jumps from 1 to 0 — a change of 1, far beyond the
claimed 1e-6 slack. -/
theorem c6_code_bug_zero_innovation_wipes_state :
    ekfC6.x.data 0 0 = 1 ∧
    quatNormSq (stateQuat ekfC6) = 1 ∧
    (∀ k, k < 6 → (matrix_create 6 1 : Matrix ℚ).data k 0 = 0) ∧
    (ekf_update_state_covariance sqrtStub ekfC6
      (matrix_create 16 6) (matrix_create 6 1) (matrix_create 6 16)).1 = true ∧
    (ekf_update_state_covariance sqrtStub ekfC6
      (matrix_create 16 6) (matrix_create 6 1) (matrix_create 6 16)).2.x.data 0 0 = 0 := by
  have hdx : ∀ i, (mmulD (matrix_create 16 6) (matrix_create 6 1) : Matrix ℚ).data i 0 = 0 :=
    mmulD_zero_col _ _ (fun k _ => rfl)
  refine ⟨?_, ?_, fun k _ => rfl, rfl, ?_⟩
  · norm_num [ekfC6, ekf_set_initial_state, ekf_init, matrix_set_data, matrix_set_rows,
      matrix_set_cols, matrix_create, vector3f_create]
  · norm_num [ekfC6, ekf_set_initial_state, ekf_init, stateQuat, quatNormSq, mgetD_eq,
      matrix_set_data, matrix_set_rows, matrix_set_cols, matrix_create,
      quaternion_normalize, quaternion_magnitude, quaternion_identity, quaternion_create,
      sqrtStub, vector3f_create]
  · have hr : (ekfC6.x : Matrix ℚ).rows
        = (mmulD (matrix_create 16 6) (matrix_create 6 1) : Matrix ℚ).rows := by
      norm_num [ekfC6, ekf_set_initial_state, ekf_init, matrix_set_rows, mmulD,
        matrix_multiply, matrix_create]
    have hc : (ekfC6.x : Matrix ℚ).cols
        = (mmulD (matrix_create 16 6) (matrix_create 6 1) : Matrix ℚ).cols := by
      norm_num [ekfC6, ekf_set_initial_state, ekf_init, matrix_set_cols, mmulD,
        matrix_multiply, matrix_create]
    simp only [ekf_update_state_covariance, matrix_set_data]
    norm_num
    exact addA_data_zero_right _ _ hr hc 0 0 (hdx 0)

/-! ### Claim C4 -/

/-- Shapes survive a shape-checked matrix_add with fallback to the
first operand (as the symmetrization step of the covariance update
uses it). -/
theorem addD_rows (a b : Matrix F) : ((matrix_add a b).getD a).rows = a.rows := by
  unfold matrix_add
  split
  · rfl
  · rfl

theorem addD_cols (a b : Matrix F) : ((matrix_add a b).getD a).cols = a.cols := by
  unfold matrix_add
  split
  · rfl
  · rfl

/-- The state-correction step always leaves an exactly unit quaternion
sub-state when the square root is exact, whatever the gain, innovation
and Jacobian are. -/
theorem quatNormSq_update_cov (sqrt : F → F)
    (hsq : ∀ a : F, 0 ≤ a → sqrt a * sqrt a = a) (ekf : EKF F)
    (hxr : ekf.x.rows = 16) (hxc : ekf.x.cols = 1) (K y H : Matrix F) :
    quatNormSq (stateQuat (ekf_update_state_covariance sqrt ekf K y H).2) = 1 := by
  have hx1r : (matrix_add_aliased ekf.x (mmulD K y)).rows = 16 := by
    rw [addA_rows _ _ (by omega)]; exact hxr
  have hx1c : (matrix_add_aliased ekf.x (mmulD K y)).cols = 1 := by
    rw [addA_cols _ _ (by omega)]; exact hxc
  unfold ekf_update_state_covariance
  simp only [stateQuat, mgetD_eq, matrix_set_data, matrix_set_rows, matrix_set_cols,
    hx1r, hx1c]
  norm_num
  exact quatNormSq_normalize sqrt hsq _

/-- The tail of each measurement update: if the Kalman-gain match
produced a success, the state-correction step ran and left an exactly
unit quaternion sub-state. -/
theorem update_match_quat (sqrt : F → F)
    (hsq : ∀ a : F, 0 ≤ a → sqrt a * sqrt a = a) (ekf : EKF F)
    (hxr : ekf.x.rows = 16) (hxc : ekf.x.cols = 1)
    (Kopt : Option (Matrix F)) (y H : Matrix F)
    (hsucc : (match Kopt with
              | none => ((false : Bool), ekf)
              | some K => ekf_update_state_covariance sqrt ekf K y H).1 = true) :
    quatNormSq (stateQuat (match Kopt with
              | none => ((false : Bool), ekf)
              | some K => ekf_update_state_covariance sqrt ekf K y H).2) = 1 := by
  cases Kopt with
  | none => exact absurd hsucc (by simp)
  | some K => exact quatNormSq_update_cov sqrt hsq ekf hxr hxc K y H

/-- C4 (amended): the state-writing operations (set_initial_state,
reset, predict when it succeeds, and each measurement update when it
succeeds) leave the quaternion sub-state with exactly unit norm; the
configuration setters do not touch the state vector at all, hence
preserve the invariant without establishing it (after ekf_init the
quaternion sub-state is zero until set_initial_state or reset runs). -/
theorem c4_quat_unit_after_ops (sqrt : F → F)
    (hsq : ∀ a : F, 0 ≤ a → sqrt a * sqrt a = a) (ekf : EKF F)
    (hxr : ekf.x.rows = 16) (hxc : ekf.x.cols = 1) :
    (∀ pos vel q, quatNormSq (stateQuat (ekf_set_initial_state sqrt ekf pos vel q).2) = 1) ∧
    quatNormSq (stateQuat (ekf_reset ekf).2) = 1 ∧
    (∀ gyro accel dt, (ekf_predict sqrt ekf gyro accel dt).1 = true →
      quatNormSq (stateQuat (ekf_predict sqrt ekf gyro accel dt).2) = 1) ∧
    (∀ pos vel, (ekf_update_gps sqrt ekf pos vel).1 = true →
      quatNormSq (stateQuat (ekf_update_gps sqrt ekf pos vel).2) = 1) ∧
    (∀ altitude, (ekf_update_baro sqrt ekf altitude).1 = true →
      quatNormSq (stateQuat (ekf_update_baro sqrt ekf altitude).2) = 1) ∧
    (∀ mag, (ekf_update_mag sqrt ekf mag).1 = true →
      quatNormSq (stateQuat (ekf_update_mag sqrt ekf mag).2) = 1) ∧
    (∀ a b c d e, (ekf_set_process_noise ekf a b c d e).2.x = ekf.x) ∧
    (∀ a b, (ekf_set_gps_noise ekf a b).2.x = ekf.x) ∧
    (∀ a, (ekf_set_baro_noise ekf a).2.x = ekf.x) ∧
    (∀ a, (ekf_set_mag_noise ekf a).2.x = ekf.x) ∧
    (∀ v, (ekf_set_earth_magnetic_field ekf v).2.x = ekf.x) := by
  obtain ⟨x, P, Q, Rg, Rb, Rm, grav, emn, ini⟩ := ekf
  obtain ⟨xr, xc, xd⟩ := x
  dsimp only at hxr hxc
  subst hxr
  subst hxc
  refine ⟨?_, ?_, ?_, ?_, ?_, ?_, fun _ _ _ _ _ => by simp only [ekf_set_process_noise],
    fun _ _ => by simp only [ekf_set_gps_noise], fun _ => by simp only [ekf_set_baro_noise],
    fun _ => by simp only [ekf_set_mag_noise],
    fun _ => by simp only [ekf_set_earth_magnetic_field]⟩
  · intro pos vel q
    unfold ekf_set_initial_state
    simp only [stateQuat, mgetD_eq, matrix_set_data, matrix_set_rows, matrix_set_cols]
    norm_num
    exact quatNormSq_normalize sqrt hsq q
  · unfold ekf_reset
    simp only [stateQuat, mgetD_eq, matrix_set_data, matrix_set_rows, matrix_set_cols,
      matrix_zero_rows, matrix_zero_cols]
    norm_num [quatNormSq, matrix_zero]
  · intro gyro accel dt hsucc
    unfold ekf_predict ekf_predict_state at hsucc ⊢
    by_cases hdt : dt ≤ 0
    · rw [if_pos hdt] at hsucc
      exact absurd hsucc (by simp)
    rw [if_neg hdt] at hsucc ⊢
    by_cases hini : ini = false
    · rw [if_pos hini] at hsucc
      exact absurd hsucc (by simp)
    rw [if_neg hini] at hsucc ⊢
    simp only [stateQuat, mgetD_eq, matrix_set_data, matrix_set_rows, matrix_set_cols]
    norm_num
    exact quatNormSq_normalize sqrt hsq _
  · intro pos vel hsucc
    unfold ekf_update_gps at hsucc ⊢
    by_cases hini : ini = false
    · rw [if_pos hini] at hsucc
      exact absurd hsucc (by simp)
    rw [if_neg hini] at hsucc ⊢
    exact update_match_quat sqrt hsq _ rfl rfl _ _ _ hsucc
  · intro altitude hsucc
    unfold ekf_update_baro at hsucc ⊢
    by_cases hini : ini = false
    · rw [if_pos hini] at hsucc
      exact absurd hsucc (by simp)
    rw [if_neg hini] at hsucc ⊢
    exact update_match_quat sqrt hsq _ rfl rfl _ _ _ hsucc
  · intro mag hsucc
    unfold ekf_update_mag at hsucc ⊢
    by_cases hini : ini = false
    · rw [if_pos hini] at hsucc
      exact absurd hsucc (by simp)
    rw [if_neg hini] at hsucc ⊢
    exact update_match_quat sqrt hsq _ rfl rfl _ _ _ hsucc

/-- C4 counterexample: the freshly constructed filter is reachable, the
configuration setter ekf_set_process_noise succeeds on it, and the
quaternion sub-state afterwards is the zero quaternion with squared norm
0, not within 1e-6 of unit norm. -/
theorem c4_counterexample_setter_zero_quat :
    (ekf_set_process_noise (ekf_init (F := ℚ)) 1 1 1 1 1).1 = true ∧
    quatNormSq (stateQuat (ekf_set_process_noise (ekf_init (F := ℚ)) 1 1 1 1 1).2) = 0 := by
  refine ⟨rfl, ?_⟩
  norm_num [ekf_set_process_noise, ekf_init, stateQuat, quatNormSq, mgetD_eq,
    matrix_create]

/-- C4 witness: the reset branch of the amended statement, instantiated
on the real numbers with the genuine square root. -/
theorem c4_witness :
    quatNormSq (stateQuat (ekf_reset (ekf_init (F := ℝ))).2) = 1 :=
  (c4_quat_unit_after_ops Real.sqrt (fun a ha => Real.mul_self_sqrt ha)
    (ekf_init (F := ℝ)) rfl rfl).2.1

/-! ### Claim C2 -/

/-- Velocity written by a successful ekf_predict, in closed form: the
bias-corrected accelerometer vector is rotated by q1, the quaternion
obtained from the integration step (after renormalization), not by the
pre-integration quaternion q0. -/
theorem ekf_predict_vel (sqrt : F → F) (ekf : EKF F)
    (hxr : ekf.x.rows = 16) (hxc : ekf.x.cols = 1)
    (gyro accel : Vector3f F) (dt : F)
    (hdt : ¬ dt ≤ 0) (hini : ¬ ekf.initialized = false) :
    ((ekf_predict sqrt ekf gyro accel dt).2.x.data 3 0 =
      mgetD ekf.x 3 0 +
      (vector3f_subtract
        (quaternion_rotate_vector
          (quaternion_normalize sqrt
            (quaternion_create
              ((quaternion_normalize sqrt (stateQuat ekf)).w +
                (quaternion_derivative (quaternion_normalize sqrt (stateQuat ekf))
                  (vector3f_create (gyro.x - mgetD ekf.x 10 0) (gyro.y - mgetD ekf.x 11 0)
                    (gyro.z - mgetD ekf.x 12 0))).w * dt)
              ((quaternion_normalize sqrt (stateQuat ekf)).x +
                (quaternion_derivative (quaternion_normalize sqrt (stateQuat ekf))
                  (vector3f_create (gyro.x - mgetD ekf.x 10 0) (gyro.y - mgetD ekf.x 11 0)
                    (gyro.z - mgetD ekf.x 12 0))).x * dt)
              ((quaternion_normalize sqrt (stateQuat ekf)).y +
                (quaternion_derivative (quaternion_normalize sqrt (stateQuat ekf))
                  (vector3f_create (gyro.x - mgetD ekf.x 10 0) (gyro.y - mgetD ekf.x 11 0)
                    (gyro.z - mgetD ekf.x 12 0))).y * dt)
              ((quaternion_normalize sqrt (stateQuat ekf)).z +
                (quaternion_derivative (quaternion_normalize sqrt (stateQuat ekf))
                  (vector3f_create (gyro.x - mgetD ekf.x 10 0) (gyro.y - mgetD ekf.x 11 0)
                    (gyro.z - mgetD ekf.x 12 0))).z * dt)))
          (vector3f_create (accel.x - mgetD ekf.x 13 0) (accel.y - mgetD ekf.x 14 0)
            (accel.z - mgetD ekf.x 15 0)))
        (vector3f_create 0 0 ekf.gravity)).x * dt) ∧
    ((ekf_predict sqrt ekf gyro accel dt).2.x.data 4 0 =
      mgetD ekf.x 4 0 +
      (vector3f_subtract
        (quaternion_rotate_vector
          (quaternion_normalize sqrt
            (quaternion_create
              ((quaternion_normalize sqrt (stateQuat ekf)).w +
                (quaternion_derivative (quaternion_normalize sqrt (stateQuat ekf))
                  (vector3f_create (gyro.x - mgetD ekf.x 10 0) (gyro.y - mgetD ekf.x 11 0)
                    (gyro.z - mgetD ekf.x 12 0))).w * dt)
              ((quaternion_normalize sqrt (stateQuat ekf)).x +
                (quaternion_derivative (quaternion_normalize sqrt (stateQuat ekf))
                  (vector3f_create (gyro.x - mgetD ekf.x 10 0) (gyro.y - mgetD ekf.x 11 0)
                    (gyro.z - mgetD ekf.x 12 0))).x * dt)
              ((quaternion_normalize sqrt (stateQuat ekf)).y +
                (quaternion_derivative (quaternion_normalize sqrt (stateQuat ekf))
                  (vector3f_create (gyro.x - mgetD ekf.x 10 0) (gyro.y - mgetD ekf.x 11 0)
                    (gyro.z - mgetD ekf.x 12 0))).y * dt)
              ((quaternion_normalize sqrt (stateQuat ekf)).z +
                (quaternion_derivative (quaternion_normalize sqrt (stateQuat ekf))
                  (vector3f_create (gyro.x - mgetD ekf.x 10 0) (gyro.y - mgetD ekf.x 11 0)
                    (gyro.z - mgetD ekf.x 12 0))).z * dt)))
          (vector3f_create (accel.x - mgetD ekf.x 13 0) (accel.y - mgetD ekf.x 14 0)
            (accel.z - mgetD ekf.x 15 0)))
        (vector3f_create 0 0 ekf.gravity)).y * dt) ∧
    ((ekf_predict sqrt ekf gyro accel dt).2.x.data 5 0 =
      mgetD ekf.x 5 0 +
      (vector3f_subtract
        (quaternion_rotate_vector
          (quaternion_normalize sqrt
            (quaternion_create
              ((quaternion_normalize sqrt (stateQuat ekf)).w +
                (quaternion_derivative (quaternion_normalize sqrt (stateQuat ekf))
                  (vector3f_create (gyro.x - mgetD ekf.x 10 0) (gyro.y - mgetD ekf.x 11 0)
                    (gyro.z - mgetD ekf.x 12 0))).w * dt)
              ((quaternion_normalize sqrt (stateQuat ekf)).x +
                (quaternion_derivative (quaternion_normalize sqrt (stateQuat ekf))
                  (vector3f_create (gyro.x - mgetD ekf.x 10 0) (gyro.y - mgetD ekf.x 11 0)
                    (gyro.z - mgetD ekf.x 12 0))).x * dt)
              ((quaternion_normalize sqrt (stateQuat ekf)).y +
                (quaternion_derivative (quaternion_normalize sqrt (stateQuat ekf))
                  (vector3f_create (gyro.x - mgetD ekf.x 10 0) (gyro.y - mgetD ekf.x 11 0)
                    (gyro.z - mgetD ekf.x 12 0))).y * dt)
              ((quaternion_normalize sqrt (stateQuat ekf)).z +
                (quaternion_derivative (quaternion_normalize sqrt (stateQuat ekf))
                  (vector3f_create (gyro.x - mgetD ekf.x 10 0) (gyro.y - mgetD ekf.x 11 0)
                    (gyro.z - mgetD ekf.x 12 0))).z * dt)))
          (vector3f_create (accel.x - mgetD ekf.x 13 0) (accel.y - mgetD ekf.x 14 0)
            (accel.z - mgetD ekf.x 15 0)))
        (vector3f_create 0 0 ekf.gravity)).z * dt) := by
  obtain ⟨x, P, Q, Rg, Rb, Rm, grav, emn, ini⟩ := ekf
  obtain ⟨xr, xc, xd⟩ := x
  dsimp only at hxr hxc
  subst hxr
  subst hxc
  unfold ekf_predict ekf_predict_state
  rw [if_neg hdt, if_neg hini]
  simp only [stateQuat, quaternion_create, mgetD_eq, matrix_set_data, matrix_set_rows,
    matrix_set_cols]
  norm_num

/-- C2 (amended): in ekf_predict the bias-corrected accelerometer vector
is rotated by the quaternion produced by integration step 2 (after its
renormalization), not by the pre-update quaternion: the velocity written
by a successful predict is v + (R(q1) a_corr - g) dt with q1 the
post-step-2 quaternion. -/
theorem c2_predict_rotates_by_post_quaternion (sqrt : F → F) (ekf : EKF F)
    (hxr : ekf.x.rows = 16) (hxc : ekf.x.cols = 1)
    (gyro accel : Vector3f F) (dt : F)
    (hdt : ¬ dt ≤ 0) (hini : ¬ ekf.initialized = false) :
    ((ekf_predict sqrt ekf gyro accel dt).2.x.data 3 0 =
      mgetD ekf.x 3 0 +
      (vector3f_subtract
        (quaternion_rotate_vector
          (quaternion_normalize sqrt
            (quaternion_create
              ((quaternion_normalize sqrt (stateQuat ekf)).w +
                (quaternion_derivative (quaternion_normalize sqrt (stateQuat ekf))
                  (vector3f_create (gyro.x - mgetD ekf.x 10 0) (gyro.y - mgetD ekf.x 11 0)
                    (gyro.z - mgetD ekf.x 12 0))).w * dt)
              ((quaternion_normalize sqrt (stateQuat ekf)).x +
                (quaternion_derivative (quaternion_normalize sqrt (stateQuat ekf))
                  (vector3f_create (gyro.x - mgetD ekf.x 10 0) (gyro.y - mgetD ekf.x 11 0)
                    (gyro.z - mgetD ekf.x 12 0))).x * dt)
              ((quaternion_normalize sqrt (stateQuat ekf)).y +
                (quaternion_derivative (quaternion_normalize sqrt (stateQuat ekf))
                  (vector3f_create (gyro.x - mgetD ekf.x 10 0) (gyro.y - mgetD ekf.x 11 0)
                    (gyro.z - mgetD ekf.x 12 0))).y * dt)
              ((quaternion_normalize sqrt (stateQuat ekf)).z +
                (quaternion_derivative (quaternion_normalize sqrt (stateQuat ekf))
                  (vector3f_create (gyro.x - mgetD ekf.x 10 0) (gyro.y - mgetD ekf.x 11 0)
                    (gyro.z - mgetD ekf.x 12 0))).z * dt)))
          (vector3f_create (accel.x - mgetD ekf.x 13 0) (accel.y - mgetD ekf.x 14 0)
            (accel.z - mgetD ekf.x 15 0)))
        (vector3f_create 0 0 ekf.gravity)).x * dt) ∧
    ((ekf_predict sqrt ekf gyro accel dt).2.x.data 4 0 =
      mgetD ekf.x 4 0 +
      (vector3f_subtract
        (quaternion_rotate_vector
          (quaternion_normalize sqrt
            (quaternion_create
              ((quaternion_normalize sqrt (stateQuat ekf)).w +
                (quaternion_derivative (quaternion_normalize sqrt (stateQuat ekf))
                  (vector3f_create (gyro.x - mgetD ekf.x 10 0) (gyro.y - mgetD ekf.x 11 0)
                    (gyro.z - mgetD ekf.x 12 0))).w * dt)
              ((quaternion_normalize sqrt (stateQuat ekf)).x +
                (quaternion_derivative (quaternion_normalize sqrt (stateQuat ekf))
                  (vector3f_create (gyro.x - mgetD ekf.x 10 0) (gyro.y - mgetD ekf.x 11 0)
                    (gyro.z - mgetD ekf.x 12 0))).x * dt)
              ((quaternion_normalize sqrt (stateQuat ekf)).y +
                (quaternion_derivative (quaternion_normalize sqrt (stateQuat ekf))
                  (vector3f_create (gyro.x - mgetD ekf.x 10 0) (gyro.y - mgetD ekf.x 11 0)
                    (gyro.z - mgetD ekf.x 12 0))).y * dt)
              ((quaternion_normalize sqrt (stateQuat ekf)).z +
                (quaternion_derivative (quaternion_normalize sqrt (stateQuat ekf))
                  (vector3f_create (gyro.x - mgetD ekf.x 10 0) (gyro.y - mgetD ekf.x 11 0)
                    (gyro.z - mgetD ekf.x 12 0))).z * dt)))
          (vector3f_create (accel.x - mgetD ekf.x 13 0) (accel.y - mgetD ekf.x 14 0)
            (accel.z - mgetD ekf.x 15 0)))
        (vector3f_create 0 0 ekf.gravity)).y * dt) ∧
    ((ekf_predict sqrt ekf gyro accel dt).2.x.data 5 0 =
      mgetD ekf.x 5 0 +
      (vector3f_subtract
        (quaternion_rotate_vector
          (quaternion_normalize sqrt
            (quaternion_create
              ((quaternion_normalize sqrt (stateQuat ekf)).w +
                (quaternion_derivative (quaternion_normalize sqrt (stateQuat ekf))
                  (vector3f_create (gyro.x - mgetD ekf.x 10 0) (gyro.y - mgetD ekf.x 11 0)
                    (gyro.z - mgetD ekf.x 12 0))).w * dt)
              ((quaternion_normalize sqrt (stateQuat ekf)).x +
                (quaternion_derivative (quaternion_normalize sqrt (stateQuat ekf))
                  (vector3f_create (gyro.x - mgetD ekf.x 10 0) (gyro.y - mgetD ekf.x 11 0)
                    (gyro.z - mgetD ekf.x 12 0))).x * dt)
              ((quaternion_normalize sqrt (stateQuat ekf)).y +
                (quaternion_derivative (quaternion_normalize sqrt (stateQuat ekf))
                  (vector3f_create (gyro.x - mgetD ekf.x 10 0) (gyro.y - mgetD ekf.x 11 0)
                    (gyro.z - mgetD ekf.x 12 0))).y * dt)
              ((quaternion_normalize sqrt (stateQuat ekf)).z +
                (quaternion_derivative (quaternion_normalize sqrt (stateQuat ekf))
                  (vector3f_create (gyro.x - mgetD ekf.x 10 0) (gyro.y - mgetD ekf.x 11 0)
                    (gyro.z - mgetD ekf.x 12 0))).z * dt)))
          (vector3f_create (accel.x - mgetD ekf.x 13 0) (accel.y - mgetD ekf.x 14 0)
            (accel.z - mgetD ekf.x 15 0)))
        (vector3f_create 0 0 ekf.gravity)).z * dt) :=
  ekf_predict_vel sqrt ekf hxr hxc gyro accel dt hdt hini

/-- C2 witness: the amended formula instantiated on the concrete filter
ekfQ with gyro (3/2, 0, 0), accel (0, 1, 0) and dt = 1; only the second
conjunct (the east velocity) is stated. -/
theorem c2_witness :
    (ekf_predict sqrtStub ekfQ gyroC2 accelC2 1).2.x.data 4 0 =
      mgetD ekfQ.x 4 0 +
      (vector3f_subtract
        (quaternion_rotate_vector
          (quaternion_normalize sqrtStub
            (quaternion_create
              ((quaternion_normalize sqrtStub (stateQuat ekfQ)).w +
                (quaternion_derivative (quaternion_normalize sqrtStub (stateQuat ekfQ))
                  (vector3f_create (gyroC2.x - mgetD ekfQ.x 10 0) (gyroC2.y - mgetD ekfQ.x 11 0)
                    (gyroC2.z - mgetD ekfQ.x 12 0))).w * 1)
              ((quaternion_normalize sqrtStub (stateQuat ekfQ)).x +
                (quaternion_derivative (quaternion_normalize sqrtStub (stateQuat ekfQ))
                  (vector3f_create (gyroC2.x - mgetD ekfQ.x 10 0) (gyroC2.y - mgetD ekfQ.x 11 0)
                    (gyroC2.z - mgetD ekfQ.x 12 0))).x * 1)
              ((quaternion_normalize sqrtStub (stateQuat ekfQ)).y +
                (quaternion_derivative (quaternion_normalize sqrtStub (stateQuat ekfQ))
                  (vector3f_create (gyroC2.x - mgetD ekfQ.x 10 0) (gyroC2.y - mgetD ekfQ.x 11 0)
                    (gyroC2.z - mgetD ekfQ.x 12 0))).y * 1)
              ((quaternion_normalize sqrtStub (stateQuat ekfQ)).z +
                (quaternion_derivative (quaternion_normalize sqrtStub (stateQuat ekfQ))
                  (vector3f_create (gyroC2.x - mgetD ekfQ.x 10 0) (gyroC2.y - mgetD ekfQ.x 11 0)
                    (gyroC2.z - mgetD ekfQ.x 12 0))).z * 1)))
          (vector3f_create (accelC2.x - mgetD ekfQ.x 13 0) (accelC2.y - mgetD ekfQ.x 14 0)
            (accelC2.z - mgetD ekfQ.x 15 0)))
        (vector3f_create 0 0 ekfQ.gravity)).y * 1 :=
  (c2_predict_rotates_by_post_quaternion sqrtStub ekfQ rfl rfl gyroC2 accelC2 1
    (by norm_num) (by decide)).2.1

/-- C2 counterexample: with the identity initial attitude, gyro
(3/2, 0, 0), accel (0, 1, 0) and dt = 1, the velocity the code writes is
(0, 7/25, ...), i.e. the accelerometer vector was rotated by the
post-integration quaternion (4/5, 3/5, 0, 0); rotating by the pre-update
quaternion as the claim states would give east velocity 1. -/
theorem c2_counterexample_pre_rotation :
    (ekf_predict sqrtStub ekfQ gyroC2 accelC2 1).2.x.data 4 0 = 7/25 ∧
    (predict_vel_spec_pre sqrtStub ekfQ accelC2 1).y = 1 ∧ ((7:ℚ)/25 ≠ 1) := by
  refine ⟨?_, ?_, by norm_num⟩
  · rw [(ekf_predict_vel sqrtStub ekfQ rfl rfl gyroC2 accelC2 1
      (by norm_num) (by decide)).2.1]
    norm_num [ekfQ, ekf_set_initial_state, ekf_init, stateQuat, mgetD_eq,
      matrix_set_data, matrix_create, quaternion_normalize, quaternion_magnitude,
      quaternion_identity, quaternion_create, quaternion_derivative,
      quaternion_multiply, quaternion_rotate_vector, vector3f_create,
      vector3f_subtract, sqrtStub, gyroC2, accelC2]
  · norm_num [predict_vel_spec_pre, ekfQ, ekf_set_initial_state, ekf_init, stateQuat,
      mgetD_eq, matrix_set_data, matrix_create, quaternion_normalize,
      quaternion_magnitude, quaternion_identity, quaternion_create,
      quaternion_rotate_vector, vector3f_create, vector3f_subtract, sqrtStub, accelC2]


/-! ### Claim C3 -/

theorem matrix_ext (a b : Matrix F) (hr : a.rows = b.rows) (hc : a.cols = b.cols)
    (hd : ∀ i j, a.data i j = b.data i j) : a = b := by
  cases a
  cases b
  simp only [Matrix.mk.injEq]
  exact ⟨hr, hc, funext fun i => funext fun j => hd i j⟩

/-- The source multiplication loop computes the mathematical matrix
product when the shapes match. -/
theorem mmulD_eq_spec (a b : Matrix F) (h : a.cols = b.rows) :
    mmulD a b = matMulSpec a b := by
  unfold mmulD matrix_multiply matMulSpec
  rw [if_pos h]
  simp only [Option.getD_some, foldl_add_eq_sum]

/-- The source addition computes the mathematical sum when the shapes
match, whatever the default is. -/
theorem addD_eq_spec (a b d : Matrix F) (h1 : a.rows = b.rows) (h2 : a.cols = b.cols) :
    (matrix_add a b).getD d = matAddSpec a b := by
  unfold matrix_add matAddSpec
  rw [if_pos ⟨h1, h2⟩]
  rfl

/-- The source transpose is the mathematical transpose. -/
theorem transpose_eq_spec : (matrix_transpose : Matrix F → Matrix F) = matTransposeSpec := rfl

/-- The source scalar multiple is the mathematical scalar multiple. -/
theorem scale_eq_spec : (matrix_scale : Matrix F → F → Matrix F) = matScaleSpec := rfl

/-- The propagation Jacobian is always a 16 x 16 matrix. -/
theorem jacobian_rows (sqrt : F → F) (e : EKF F) (dt : F) :
    (ekf_compute_jacobian sqrt e dt).rows = 16 := rfl

theorem jacobian_cols (sqrt : F → F) (e : EKF F) (dt : F) :
    (ekf_compute_jacobian sqrt e dt).cols = 16 := rfl

/-- The propagation Jacobian depends on the filter only through its
state vector. -/
theorem jacobian_only_x (sqrt : F → F) (e1 e2 : EKF F) (dt : F) (h : e1.x = e2.x) :
    ekf_compute_jacobian sqrt e1 dt = ekf_compute_jacobian sqrt e2 dt := by
  unfold ekf_compute_jacobian
  rw [h]

/-- Assembly of the covariance-propagation formula: the source sequence
multiply, multiply, scale, add equals the mathematical
F P Ft + Q dt when all shapes are 16 x 16. -/
theorem covariance_formula (Fm P Q : Matrix F) (dt : F)
    (hFr : Fm.rows = 16) (hFc : Fm.cols = 16)
    (hPr : P.rows = 16) (hPc : P.cols = 16)
    (hQr : Q.rows = 16) (hQc : Q.cols = 16) :
    (matrix_add (mmulD (mmulD Fm P) (matrix_transpose Fm)) (matrix_scale Q dt)).getD P =
      matAddSpec (matMulSpec (matMulSpec Fm P) (matTransposeSpec Fm)) (matScaleSpec Q dt) := by
  rw [mmulD_eq_spec Fm P (by omega)]
  rw [mmulD_eq_spec (matMulSpec Fm P) (matrix_transpose Fm)
    (by simp [matMulSpec, matrix_transpose, hPc, hFc])]
  rw [transpose_eq_spec, scale_eq_spec]
  exact addD_eq_spec _ _ _ (by simp [matMulSpec, matTransposeSpec, matScaleSpec, hFr, hQr])
    (by simp [matMulSpec, matTransposeSpec, matScaleSpec, hFr, hQc])

/-- The covariance half of predict equals the mathematical formula. -/
theorem predict_cov_spec (sqrt : F → F) (e1 : EKF F) (dt : F)
    (hPr : e1.P.rows = 16) (hPc : e1.P.cols = 16)
    (hQr : e1.Q.rows = 16) (hQc : e1.Q.cols = 16) :
    ekf_predict_covariance sqrt e1 dt =
      matAddSpec
        (matMulSpec (matMulSpec (ekf_compute_jacobian sqrt e1 dt) e1.P)
          (matTransposeSpec (ekf_compute_jacobian sqrt e1 dt)))
        (matScaleSpec e1.Q dt) := by
  unfold ekf_predict_covariance
  exact covariance_formula _ _ _ dt (jacobian_rows sqrt e1 dt) (jacobian_cols sqrt e1 dt)
    hPr hPc hQr hQc

/-- The state half of predict does not touch P or Q. -/
theorem predict_state_P (sqrt : F → F) (ekf : EKF F) (gyro accel : Vector3f F) (dt : F) :
    (ekf_predict_state sqrt ekf gyro accel dt).P = ekf.P := rfl

theorem predict_state_Q (sqrt : F → F) (ekf : EKF F) (gyro accel : Vector3f F) (dt : F) :
    (ekf_predict_state sqrt ekf gyro accel dt).Q = ekf.Q := rfl

/-- C3: a successful ekf_predict reports success and sets the
covariance to exactly F P Ft + Q dt, where F is the propagation
Jacobian the code computed (it reads only the already-updated state
vector of the returned filter), P is the pre-call covariance, Q the
stored process-noise matrix and the scaling of Q is linear in dt. -/
theorem c3_covariance_propagation (sqrt : F → F) (ekf : EKF F)
    (hPr : ekf.P.rows = 16) (hPc : ekf.P.cols = 16)
    (hQr : ekf.Q.rows = 16) (hQc : ekf.Q.cols = 16)
    (gyro accel : Vector3f F) (dt : F) (hdt : 0 < dt) (hini : ekf.initialized = true) :
    (ekf_predict sqrt ekf gyro accel dt).1 = true ∧
    (ekf_predict sqrt ekf gyro accel dt).2.P =
      matAddSpec
        (matMulSpec
          (matMulSpec (ekf_compute_jacobian sqrt (ekf_predict sqrt ekf gyro accel dt).2 dt)
            ekf.P)
          (matTransposeSpec (ekf_compute_jacobian sqrt (ekf_predict sqrt ekf gyro accel dt).2 dt)))
        (matScaleSpec ekf.Q dt) := by
  have hdt2 : ¬ dt ≤ 0 := not_le.mpr hdt
  have hini2 : ¬ ekf.initialized = false := by rw [hini]; simp
  have hres : ekf_predict sqrt ekf gyro accel dt =
      (true, { ekf_predict_state sqrt ekf gyro accel dt with
               P := ekf_predict_covariance sqrt (ekf_predict_state sqrt ekf gyro accel dt) dt }) := by
    unfold ekf_predict
    rw [if_neg hdt2, if_neg hini2]
  rw [hres]
  refine ⟨rfl, ?_⟩
  dsimp only
  rw [jacobian_only_x sqrt
    { ekf_predict_state sqrt ekf gyro accel dt with
      P := ekf_predict_covariance sqrt (ekf_predict_state sqrt ekf gyro accel dt) dt }
    (ekf_predict_state sqrt ekf gyro accel dt) dt rfl]
  rw [predict_cov_spec sqrt (ekf_predict_state sqrt ekf gyro accel dt) dt
    (by rw [predict_state_P]; exact hPr) (by rw [predict_state_P]; exact hPc)
    (by rw [predict_state_Q]; exact hQr) (by rw [predict_state_Q]; exact hQc)]
  rw [predict_state_P, predict_state_Q]

/-- C3 witness: a successful predict on the concrete filter ekfQ. -/
theorem c3_witness :
    (ekf_predict sqrtStub ekfQ gyroC2 accelC2 1).1 = true :=
  (c3_covariance_propagation sqrtStub ekfQ rfl rfl rfl rfl gyroC2 accelC2 1
    (by norm_num) (by decide)).1

/-! ### Claim C5 -/

/-- C5: the propagation Jacobian computed by ekf_compute_jacobian is
exactly the 16 x 16 identity plus the dt I3 position-velocity block, the
claimed 4 x 3 attitude-gyro-bias block and the negated rotation-matrix
velocity-accel-bias block, with q the normalized state quaternion; every
other off-identity entry is zero. -/
theorem c5_jacobian_blocks (sqrt : F → F) (ekf : EKF F)
    (hxr : ekf.x.rows = 16) (hxc : ekf.x.cols = 1) (dt : F) :
    ekf_compute_jacobian sqrt ekf dt =
      jacobianSpec (quaternion_normalize sqrt (stateQuat ekf)) dt := by
  obtain ⟨x, P, Q, Rg, Rb, Rm, grav, emn, ini⟩ := ekf
  obtain ⟨xr, xc, xd⟩ := x
  dsimp only at hxr hxc
  subst hxr
  subst hxc
  refine matrix_ext _ _ rfl rfl ?_
  intro i j
  unfold ekf_compute_jacobian jacobianSpec
  simp only [matrix_set_data, matrix_set_rows, matrix_set_cols, mgetD_eq, stateQuat,
    quaternion_create, matrix_identity, matrix_create, quaternion_normalize,
    quaternion_magnitude, quaternion_identity]
  norm_num
  by_cases hq : sqrt (xd 6 0 * xd 6 0 + xd 7 0 * xd 7 0 + xd 8 0 * xd 8 0 + xd 9 0 * xd 9 0) <
      1/1000000
  · simp only [if_pos hq]
    norm_num
  · simp only [if_neg hq]
    norm_num [div_eq_mul_inv]

/-- C5 witness: the block structure instantiated on the concrete filter
ekfQ at dt = 1. -/
theorem c5_witness :
    ekf_compute_jacobian sqrtStub ekfQ 1 =
      jacobianSpec (quaternion_normalize sqrtStub (stateQuat ekfQ)) 1 :=
  c5_jacobian_blocks sqrtStub ekfQ rfl rfl 1

/-! ### Claim C10 -/

theorem exceptP_ne_error {α : Type} {e : GJErr} {P : α → Prop} {x : Except GJErr α}
    (h : ExceptP e P x) : x ≠ Except.error e := by
  cases x with
  | ok a => simp
  | error e2 =>
      intro hx
      injection hx with h2
      exact (h : e2 ≠ e) h2

theorem exceptP_pure {α : Type} {e : GJErr} {P : α → Prop} (a : α) (h : P a) :
    ExceptP e P (pure a) := h

theorem exceptP_bind {α β : Type} {e : GJErr} {P : β → Prop} {Q : α → Prop}
    {x : Except GJErr α} {f : α → Except GJErr β}
    (hx : ExceptP e Q x) (hf : ∀ a, Q a → ExceptP e P (f a)) :
    ExceptP e P (x >>= f) := by
  cases x with
  | ok a => exact hf a hx
  | error e2 => exact hx

theorem exceptP_foldlM {α β : Type} {e : GJErr} {Q : β → Prop}
    (f : β → α → Except GJErr β) (l : List α) :
    ∀ b : β, Q b → (∀ b2 a, a ∈ l → Q b2 → ExceptP e Q (f b2 a)) →
      ExceptP e Q (l.foldlM f b) := by
  induction l with
  | nil => intro b hb _; exact hb
  | cons a t ih =>
      intro b hb hf
      rw [List.foldlM_cons]
      refine exceptP_bind (hf b a (List.mem_cons_self a t) hb) fun b2 hb2 => ih b2 hb2 ?_
      intro b3 a3 ha3 hb3
      exact hf b3 a3 (List.mem_cons_of_mem a ha3) hb3

theorem exceptP_aget {P : F → Prop} (d : ℕ → ℕ → F) (r c : ℕ)
    (hr : r < 16) (hc : c < 16) (h : P (d r c)) :
    ExceptP GJErr.oob P (aget d r c) := by
  rw [aget_eq, if_pos ⟨hr, hc⟩]
  exact h

theorem exceptP_aset (d : ℕ → ℕ → F) (r c : ℕ) (v : F)
    (hr : r < 16) (hc : c < 16) :
    ExceptP GJErr.oob (fun _ => True) (aset d r c v) := by
  rw [aset_eq, if_pos ⟨hr, hc⟩]
  trivial

theorem exceptP_fail {α : Type} {P : α → Prop} :
    ExceptP GJErr.oob P (Except.error GJErr.fail) := by
  intro h
  cases h

/-- The pivot search stays inside the capacity and returns a pivot row
below n. -/
theorem gjFindPivot_ok (d : ℕ → ℕ → F) (n i : ℕ) (hn : n ≤ 16) (hi : i < n) :
    ExceptP GJErr.oob (fun pm => pm.1 < n) (gjFindPivot d n i) := by
  unfold gjFindPivot
  refine exceptP_bind (Q := fun _ => True)
    (exceptP_aget d i i (by omega) (by omega) trivial) ?_
  intro v0 _
  refine exceptP_foldlM _ _ (i, |v0|) hi ?_
  intro pm j hj hpm
  have hjn : j < n := by
    rcases List.mem_range'_1.mp hj with ⟨h1, h2⟩
    omega
  refine exceptP_bind (Q := fun _ => True)
    (exceptP_aget d j i (by omega) (by omega) trivial) ?_
  intro v _
  split
  · exact exceptP_pure _ hjn
  · exact exceptP_pure _ hpm

/-- The row swap stays inside the capacity when the logical size is at
most 8 (so that 2n does not exceed the capacity). -/
theorem gjSwapRows_ok (d : ℕ → ℕ → F) (n i pivot : ℕ)
    (hn : n ≤ 8) (hi : i < n) (hp : pivot < n) :
    ExceptP GJErr.oob (fun _ => True) (gjSwapRows d n i pivot) := by
  unfold gjSwapRows
  refine exceptP_foldlM _ _ d trivial ?_
  intro d2 j hj _
  have hj2 : j < 2 * n := List.mem_range.mp hj
  refine exceptP_bind (Q := fun _ => True)
    (exceptP_aget d2 i j (by omega) (by omega) trivial) ?_
  intro temp _
  refine exceptP_bind (Q := fun _ => True)
    (exceptP_aget d2 pivot j (by omega) (by omega) trivial) ?_
  intro pv _
  refine exceptP_bind (Q := fun _ => True)
    (exceptP_aset d2 i j pv (by omega) (by omega)) ?_
  intro d3 _
  exact exceptP_aset d3 pivot j temp (by omega) (by omega)

/-- The tail of one elimination step (normalize the pivot row, then
eliminate the column from the other rows) stays inside the capacity
when the logical size is at most 8. -/
theorem gjStep_tail_ok (n : ℕ) (hn : n ≤ 8) (i : ℕ) (hi : i < n) (d2 : ℕ → ℕ → F) :
    ExceptP GJErr.oob (fun _ => True)
      (do
        let pivot_val ← aget d2 i i
        let d ← (List.range (2*n)).foldlM
          (fun d j => do
            let v ← aget d i j
            aset d i j (v / pivot_val))
          d2
        (List.range n).foldlM
          (fun d j =>
            if j ≠ i then do
              let factor ← aget d j i
              (List.range (2*n)).foldlM
                (fun d k => do
                  let vjk ← aget d j k
                  let vik ← aget d i k
                  aset d j k (vjk - factor * vik))
                d
            else pure d)
          d) := by
  refine exceptP_bind (Q := fun _ => True)
    (exceptP_aget d2 i i (by omega) (by omega) trivial) ?_
  intro pivot_val _
  refine exceptP_bind (Q := fun _ => True) ?_ ?_
  · refine exceptP_foldlM _ _ d2 trivial ?_
    intro d3 j hj _
    have hj2 : j < 2 * n := List.mem_range.mp hj
    refine exceptP_bind (Q := fun _ => True)
      (exceptP_aget d3 i j (by omega) (by omega) trivial) ?_
    intro v _
    exact exceptP_aset d3 i j (v / pivot_val) (by omega) (by omega)
  · intro d3 _
    refine exceptP_foldlM _ _ d3 trivial ?_
    intro d4 j hj _
    have hjn : j < n := List.mem_range.mp hj
    split
    · refine exceptP_bind (Q := fun _ => True)
        (exceptP_aget d4 j i (by omega) (by omega) trivial) ?_
      intro factor _
      refine exceptP_foldlM _ _ d4 trivial ?_
      intro d5 k hk _
      have hk2 : k < 2 * n := List.mem_range.mp hk
      refine exceptP_bind (Q := fun _ => True)
        (exceptP_aget d5 j k (by omega) (by omega) trivial) ?_
      intro vjk _
      refine exceptP_bind (Q := fun _ => True)
        (exceptP_aget d5 i k (by omega) (by omega) trivial) ?_
      intro vik _
      exact exceptP_aset d5 j k (vjk - factor * vik) (by omega) (by omega)
    · exact exceptP_pure _ trivial

/-- One elimination step stays inside the capacity when the logical
size is at most 8. -/
theorem gjStep_ok (n : ℕ) (hn : n ≤ 8) (d : ℕ → ℕ → F) (i : ℕ) (hi : i < n) :
    ExceptP GJErr.oob (fun _ => True) (gjStep n d i) := by
  unfold gjStep
  refine exceptP_bind (gjFindPivot_ok d n i (by omega) hi) ?_
  rintro ⟨pivot, max_val⟩ hpm
  have hp : pivot < n := hpm
  dsimp only
  split
  · exact exceptP_fail
  · split
    · refine exceptP_bind (Q := fun _ => True)
        (gjSwapRows_ok d n i pivot hn hi hp) ?_
      intro d2 _
      exact gjStep_tail_ok n hn i hi d2
    · exact gjStep_tail_ok n hn i hi d

/-- C10 (amended): for a square matrix of logical size at most 8, every
raw access the Gauss-Jordan inversion performs on its augmented working
matrix lies inside the 16 x 16 storage capacity, so the run never fails
with the out-of-bounds marker.  (For sizes 9 to 16 the claim fails: the
loops index augmented columns up to 2n-1, beyond the capacity the
clamped matrix_create provides.) -/
theorem c10_inverse_no_oob_up_to_8 (m : Matrix F)
    (hsq : m.rows = m.cols) (h8 : m.rows ≤ 8) :
    matrix_inverse_run m ≠ Except.error GJErr.oob := by
  apply exceptP_ne_error (P := fun _ => True)
  unfold matrix_inverse_run
  rw [if_neg (by simp [hsq])]
  refine exceptP_bind (Q := fun _ => True) ?_ ?_
  · refine exceptP_foldlM _ _ _ trivial ?_
    intro d i hi _
    have hin : i < m.rows := List.mem_range.mp hi
    refine exceptP_foldlM _ _ d trivial ?_
    intro d2 j hj _
    have hjn : j < m.rows := List.mem_range.mp hj
    exact exceptP_aset d2 i j (m.data i j) (by omega) (by omega)
  · intro d1 _
    refine exceptP_bind (Q := fun _ => True) ?_ ?_
    · refine exceptP_foldlM _ _ d1 trivial ?_
      intro d2 i hi _
      have hin : i < m.rows := List.mem_range.mp hi
      exact exceptP_aset d2 i (i + m.rows) 1 (by omega) (by omega)
    · intro d2 _
      refine exceptP_bind (Q := fun _ => True) ?_ ?_
      · refine exceptP_foldlM _ _ d2 trivial ?_
        intro d3 i hi _
        exact gjStep_ok m.rows h8 d3 i (List.mem_range.mp hi)
      · intro d3 _
        refine exceptP_foldlM _ _ _ trivial ?_
        intro r i hi _
        have hin : i < m.rows := List.mem_range.mp hi
        refine exceptP_foldlM _ _ r trivial ?_
        intro r2 j hj _
        have hjn : j < m.rows := List.mem_range.mp hj
        refine exceptP_bind (Q := fun _ => True)
          (exceptP_aget d3 i (j + m.rows) (by omega) (by omega) trivial) ?_
        intro v _
        exact exceptP_pure _ trivial

/-- C10 counterexample: at logical size n = 9 (inside the claimed range
1..16) the run reaches a raw write at augmented column 16, outside the
16 x 16 capacity: the write of the identity-block 1 for row 7 targets
column 7 + 9 = 16.  The claim as stated is therefore false. -/
theorem c10_counterexample_n9 :
    (matrix_identity 9 : Matrix ℚ).rows = 9 ∧
    matrix_inverse_run (matrix_identity 9 : Matrix ℚ) = Except.error GJErr.oob :=
  ⟨rfl, rfl⟩

/-- C10 witness: the amended statement applied to a 3 x 3 identity. -/
theorem c10_witness :
    matrix_inverse_run (matrix_identity 3 : Matrix ℚ) ≠ Except.error GJErr.oob :=
  c10_inverse_no_oob_up_to_8 (matrix_identity 3) rfl (by decide)

end Polaris
